import Mathlib

/-!
Verification of the `00-cryptos-rs` Bitcoin-cryptography toolkit.

This file shallowly embeds the Rust sources (`ru256.rs`, `secp256k1.rs`,
`curves.rs`, `keys.rs`, `sha256.rs`, `signature.rs`, `block.rs`) into Lean.

Conventions of the embedding:
* A Rust `U256` value is a `Nat` below `2 ^ 256`; wrapping behaviour of the
  `primitive_types::U256` operations is made explicit with `% 2 ^ 256`.
* `primitive_types::U256` arithmetic that panics (overflowing `+`, `*`, `pow`,
  underflowing `-`, `Option::unwrap` on `None`, failing `assert!`) is modelled
  with `Option`/`Except`: a panic is `none` / a tagged error.
* Loops are translated to structurally recursive functions on an explicit
  fuel argument equal to the Rust iteration count, so every definition is
  executable by kernel reduction.
* Functions of the repository that are referenced but missing from the
  sources (the big-integer curve draft used by `signature.rs`, and
  `curves::pow` used by `block.rs`) are modelled from the specification;
  each such definition carries a doc comment starting with
  `Modelled from the spec:`.
-/

/-! ## secp256k1 constants (secp256k1.rs lines 76-93, bitcoin.rs) -/

/-- Field prime p = 2^256 - 2^32 - 977 (`SECP256K1::p`). -/
def P256 : Nat := 0xFFFFFFFFFFFFFFFFFFFFFFFFFFFFFFFFFFFFFFFFFFFFFFFFFFFFFFFEFFFFFC2F

/-- Group order n (`SECP256K1::n`). -/
def N256 : Nat := 0xFFFFFFFFFFFFFFFFFFFFFFFFFFFFFFFEBAAEDCE6AF48A03BBFD25E8CD0364141

/-- Generator x-coordinate (`SECP256K1::g`). -/
def GX : Nat := 0x79BE667EF9DCBBAC55A06295CE870B07029BFCDB2DCE28D959F2815B16F81798

/-- Generator y-coordinate (`SECP256K1::g`). -/
def GY : Nat := 0x483ADA7726A3C4655DA4FBFC0E1108A8FD17B448A68554199C47D08FFB10D4B8

/-! ## Bit length (primitive_types `U256::bits`)

`U256::bits` returns the least number of bits needed to represent the value
(0 for 0).  A `U256` has at most 256 bits, so fuel 257 is exact. -/

def nbitsGo : Nat → Nat → Nat
  | 0, _ => 0
  | fuel+1, n => if n = 0 then 0 else nbitsGo fuel (n / 2) + 1

/-- Bit length of a `U256` value. -/
def nbits (n : Nat) : Nat := nbitsGo 257 n

theorem nbitsGo_lt (fuel : Nat) : ∀ n : Nat, n < 2 ^ fuel → n < 2 ^ nbitsGo fuel n := by
  induction fuel with
  | zero => intro n h; simpa [nbitsGo] using h
  | succ fuel ih =>
    intro n h
    by_cases h0 : n = 0
    · simp [nbitsGo, h0]
    · have hdiv : n / 2 < 2 ^ fuel := by
        have h2 : n < 2 ^ fuel * 2 := by
          calc n < 2 ^ (fuel + 1) := h
          _ = 2 ^ fuel * 2 := by ring
        exact Nat.div_lt_of_lt_mul (by omega)
      have := ih (n / 2) hdiv
      have hn : n < 2 ^ (nbitsGo fuel (n / 2) + 1) := by
        have h2 : n ≤ 2 * (n / 2) + 1 := by omega
        have := Nat.div_add_mod n 2
        calc n ≤ 2 * (n / 2) + 1 := h2
        _ < 2 * 2 ^ nbitsGo fuel (n / 2) := by omega
        _ = 2 ^ (nbitsGo fuel (n / 2) + 1) := by ring
      simpa [nbitsGo, h0] using hn

theorem nbits_lt (n : Nat) (h : n < 2 ^ 256) : n < 2 ^ nbits n := by
  have h' : n < 2 ^ 257 := by
    calc n < 2 ^ 256 := h
    _ < 2 ^ 257 := by norm_num
  exact nbitsGo_lt 257 n h'

/-! ## ru256.rs: the `RU256` 256-bit modular arithmetic -/

namespace RU256

/-- RU256.add_mod (ru256.rs lines 111-126): reduce both operands mod `p`,
add with `U256::overflowing_add` (wrap at `2^256`), and subtract `p` with
`overflowing_sub` when the raw sum overflowed or reached `p`.
Rust `%` panics for `p = 0`; the claims only concern `p > 0`. -/
def add_mod (a b p : Nat) : Nat :=
  if 2 ^ 256 ≤ a % p + b % p ∨ p ≤ (a % p + b % p) % 2 ^ 256
  then ((a % p + b % p) % 2 ^ 256 + 2 ^ 256 - p) % 2 ^ 256
  else (a % p + b % p) % 2 ^ 256

/-- RU256.sub_mod (ru256.rs lines 129-139). -/
def sub_mod (a b p : Nat) : Nat :=
  if b % p ≤ a % p then (a % p - b % p) % p else (p - (b % p - a % p)) % p

/-- Loop body of RU256.mul_mod (ru256.rs lines 148-153): double-and-add over
the bits of the reduced multiplicand; `x` carries the not-yet-consumed bits
(`x / 2^i` after `i` iterations), so `x % 2 = 1` is `x1.bit(i)`. -/
def mulModGo (p : Nat) : Nat → Nat → Nat → Nat → Nat
  | 0, _x, result, _adder => result
  | fuel+1, x, result, adder =>
    mulModGo p fuel (x / 2)
      (if x % 2 = 1 then add_mod result adder p else result)
      (add_mod adder adder p)

/-- RU256.mul_mod (ru256.rs lines 142-156); the Rust loop runs
`x1.bits()` times. -/
def mul_mod (a b p : Nat) : Nat :=
  mulModGo p (nbits (a % p)) (a % p) 0 (b % p)

/-- Loop body of RU256.exp_mod (ru256.rs lines 163-168): square-and-multiply
over the bits of the exponent, LSB first. -/
def expModGo (p : Nat) : Nat → Nat → Nat → Nat → Nat
  | 0, _e, result, _m => result
  | fuel+1, e, result, m =>
    expModGo p fuel (e / 2)
      (if e % 2 = 1 then mul_mod result m p else result)
      (mul_mod m m p)

/-- RU256.exp_mod (ru256.rs lines 159-171); `result` starts at `one()`. -/
def exp_mod (a e p : Nat) : Nat := expModGo p (nbits e) e 1 (a % p)

/-- RU256.div_mod (ru256.rs lines 174-178): Fermat division
`a * b^(p-2) mod p`.  The Rust code asserts `p > 2`; all uses in the claims
satisfy it. -/
def div_mod (a b p : Nat) : Nat := mul_mod a (exp_mod b (p - 2) p) p

end RU256

/-! ## Correctness lemmas for the RU256 operations -/

theorem add_mod_eq (a b p : Nat) (hp : 0 < p) (hp2 : p ≤ 2 ^ 256) :
    RU256.add_mod a b p = (a + b) % p := by
  have hx1 : a % p < p := Nat.mod_lt _ hp
  have hx2 : b % p < p := Nat.mod_lt _ hp
  have habp : (a + b) % p = (a % p + b % p) % p := by rw [Nat.add_mod]
  rw [habp]
  unfold RU256.add_mod
  set s := a % p + b % p with hs_def
  have hs : s < 2 * p := by omega
  rcases Nat.lt_or_ge s (2 ^ 256) with hlt | hge
  · have hsK : s % 2 ^ 256 = s := Nat.mod_eq_of_lt hlt
    rw [hsK]
    rcases Nat.lt_or_ge s p with hsp | hps
    · rw [if_neg (by omega), Nat.mod_eq_of_lt hsp]
    · rw [if_pos (Or.inr hps)]
      have h1 : s + 2 ^ 256 - p = s - p + 2 ^ 256 := by omega
      rw [h1, Nat.add_mod_right, Nat.mod_eq_of_lt (by omega : s - p < 2 ^ 256),
        Nat.mod_eq_sub_mod hps, Nat.mod_eq_of_lt (by omega : s - p < p)]
  · have hsK : s % 2 ^ 256 = s - 2 ^ 256 := by
      rw [Nat.mod_eq_sub_mod hge]
      exact Nat.mod_eq_of_lt (by omega)
    rw [hsK, if_pos (Or.inl hge)]
    have hps : p ≤ s := by omega
    have h1 : s - 2 ^ 256 + 2 ^ 256 - p = s - p := by omega
    rw [h1, Nat.mod_eq_of_lt (by omega : s - p < 2 ^ 256),
      Nat.mod_eq_sub_mod hps, Nat.mod_eq_of_lt (by omega : s - p < p)]

theorem sub_mod_eq (a b p : Nat) (hp : 0 < p) :
    RU256.sub_mod a b p = (p + a % p - b % p) % p := by
  unfold RU256.sub_mod
  have hx1 : a % p < p := Nat.mod_lt _ hp
  have hx2 : b % p < p := Nat.mod_lt _ hp
  by_cases h : b % p ≤ a % p
  · simp only [if_pos h]
    have : p + a % p - b % p = (a % p - b % p) + p := by omega
    rw [this, Nat.add_mod_right]
  · simp only [if_neg h]
    have : p + a % p - b % p = p - (b % p - a % p) := by omega
    rw [this]

/-- Binary decomposition of a remainder: the low bit plus twice the
remaining bits. -/
theorem mod_two_pow_succ (x fuel : Nat) :
    x % 2 ^ (fuel + 1) = x % 2 + 2 * (x / 2 % 2 ^ fuel) := by
  have h1 : 2 ^ (fuel + 1) = 2 * 2 ^ fuel := by ring
  rw [h1, Nat.mod_mul]

theorem mulModGo_eq (p : Nat) (hp : 0 < p) (hp2 : p ≤ 2 ^ 256) :
    ∀ fuel x r adder : Nat, r < p → adder < p →
      RU256.mulModGo p fuel x r adder = (r + x % 2 ^ fuel * adder) % p := by
  intro fuel
  induction fuel with
  | zero =>
    intro x r adder hr _
    simp [RU256.mulModGo, Nat.mod_one, Nat.mod_eq_of_lt hr]
  | succ fuel ih =>
    intro x r adder hr ha
    have hA : ∀ u v : Nat, RU256.add_mod u v p = (u + v) % p := fun u v =>
      add_mod_eq u v p hp hp2
    have hr' : (if x % 2 = 1 then RU256.add_mod r adder p else r) < p := by
      split
      · rw [hA]; exact Nat.mod_lt _ hp
      · exact hr
    have ha' : RU256.add_mod adder adder p < p := by rw [hA]; exact Nat.mod_lt _ hp
    have hstep : RU256.mulModGo p (fuel + 1) x r adder
        = RU256.mulModGo p fuel (x / 2)
            (if x % 2 = 1 then RU256.add_mod r adder p else r)
            (RU256.add_mod adder adder p) := rfl
    rw [hstep, ih (x / 2) _ _ hr' ha', mod_two_pow_succ]
    simp only [hA]
    by_cases h2 : x % 2 = 1
    · rw [if_pos h2, h2]
      have m1 : (r + adder) % p + x / 2 % 2 ^ fuel * ((adder + adder) % p)
          ≡ (r + adder) + x / 2 % 2 ^ fuel * (adder + adder) [MOD p] :=
        Nat.ModEq.add (Nat.mod_modEq _ _) (Nat.ModEq.mul_left _ (Nat.mod_modEq _ _))
      have m2 : (r + adder) + x / 2 % 2 ^ fuel * (adder + adder)
          = r + (1 + 2 * (x / 2 % 2 ^ fuel)) * adder := by ring
      rw [m2] at m1
      exact m1
    · have h2' : x % 2 = 0 := by omega
      rw [if_neg h2, h2']
      have m1 : r + x / 2 % 2 ^ fuel * ((adder + adder) % p)
          ≡ r + x / 2 % 2 ^ fuel * (adder + adder) [MOD p] :=
        Nat.ModEq.add_left _ (Nat.ModEq.mul_left _ (Nat.mod_modEq _ _))
      have m2 : r + x / 2 % 2 ^ fuel * (adder + adder)
          = r + (0 + 2 * (x / 2 % 2 ^ fuel)) * adder := by ring
      rw [m2] at m1
      exact m1

theorem mul_mod_eq (a b p : Nat) (hp : 0 < p) (hp2 : p ≤ 2 ^ 256) :
    RU256.mul_mod a b p = a * b % p := by
  unfold RU256.mul_mod
  have hx1 : a % p < p := Nat.mod_lt _ hp
  rw [mulModGo_eq p hp hp2 (nbits (a % p)) (a % p) 0 (b % p) hp (Nat.mod_lt _ hp)]
  have hx : a % p % 2 ^ nbits (a % p) = a % p :=
    Nat.mod_eq_of_lt (nbits_lt _ (lt_of_lt_of_le hx1 hp2))
  rw [hx, Nat.zero_add]
  exact (Nat.mul_mod a b p).symm

theorem expModGo_eq (p : Nat) (hp : 1 < p) (hp2 : p ≤ 2 ^ 256) :
    ∀ fuel e r m : Nat, r < p → m < p →
      RU256.expModGo p fuel e r m = r * m ^ (e % 2 ^ fuel) % p := by
  have hp0 : 0 < p := by omega
  intro fuel
  induction fuel with
  | zero =>
    intro e r m hr _
    simp [RU256.expModGo, Nat.mod_one, Nat.mod_eq_of_lt hr]
  | succ fuel ih =>
    intro e r m hr hm
    have hM : ∀ u v : Nat, RU256.mul_mod u v p = u * v % p := fun u v =>
      mul_mod_eq u v p hp0 hp2
    have hr' : (if e % 2 = 1 then RU256.mul_mod r m p else r) < p := by
      split
      · rw [hM]; exact Nat.mod_lt _ hp0
      · exact hr
    have hm' : RU256.mul_mod m m p < p := by rw [hM]; exact Nat.mod_lt _ hp0
    have hstep : RU256.expModGo p (fuel + 1) e r m
        = RU256.expModGo p fuel (e / 2)
            (if e % 2 = 1 then RU256.mul_mod r m p else r)
            (RU256.mul_mod m m p) := rfl
    rw [hstep, ih (e / 2) _ _ hr' hm', mod_two_pow_succ]
    simp only [hM]
    by_cases h2 : e % 2 = 1
    · rw [if_pos h2, h2]
      have m1 : r * m % p * ((m * m % p) ^ (e / 2 % 2 ^ fuel))
          ≡ (r * m) * ((m * m) ^ (e / 2 % 2 ^ fuel)) [MOD p] :=
        Nat.ModEq.mul (Nat.mod_modEq _ _) (Nat.ModEq.pow _ (Nat.mod_modEq _ _))
      have m2 : (r * m) * ((m * m) ^ (e / 2 % 2 ^ fuel))
          = r * m ^ (1 + 2 * (e / 2 % 2 ^ fuel)) := by ring
      rw [m2] at m1
      exact m1
    · have h2' : e % 2 = 0 := by omega
      rw [if_neg h2, h2']
      have m1 : r * ((m * m % p) ^ (e / 2 % 2 ^ fuel))
          ≡ r * ((m * m) ^ (e / 2 % 2 ^ fuel)) [MOD p] :=
        Nat.ModEq.mul_left _ (Nat.ModEq.pow _ (Nat.mod_modEq _ _))
      have m2 : r * ((m * m) ^ (e / 2 % 2 ^ fuel))
          = r * m ^ (0 + 2 * (e / 2 % 2 ^ fuel)) := by ring
      rw [m2] at m1
      exact m1

theorem exp_mod_eq (a e p : Nat) (hp : 1 < p) (hp2 : p ≤ 2 ^ 256)
    (he : e < 2 ^ 256) : RU256.exp_mod a e p = a ^ e % p := by
  unfold RU256.exp_mod
  have hp0 : 0 < p := by omega
  rw [expModGo_eq p hp hp2 (nbits e) e 1 (a % p) hp (Nat.mod_lt _ hp0)]
  have hx : e % 2 ^ nbits e = e := Nat.mod_eq_of_lt (nbits_lt _ he)
  rw [hx, Nat.one_mul, ← Nat.pow_mod]

theorem div_mod_eq (a b p : Nat) (hp : 1 < p) (hp2 : p ≤ 2 ^ 256) :
    RU256.div_mod a b p = a * (b ^ (p - 2) % p) % p := by
  unfold RU256.div_mod
  rw [exp_mod_eq b (p - 2) p hp hp2 (by omega), mul_mod_eq a _ p (by omega) hp2]

/-! ## Fast modular exponentiation

`powModF` is a direct square-and-multiply exponentiator with fixed fuel 256.
It is used both as the evaluation-friendly form of `RU256.exp_mod` (they agree
by `exp_mod_eq`/`powModF_eq`) and as the spec-modelled modular inverse
(`inv_mod(a, p) = exp_mod(a, p-2, p)`, spec section 4.1, Fermat variant). -/

def powModGo (p : Nat) : Nat → Nat → Nat → Nat → Nat
  | 0, _e, _m, r => r
  | fuel+1, e, m, r =>
    if e = 0 then r
    else powModGo p fuel (e / 2) (m * m % p) (if e % 2 = 1 then r * m % p else r)

theorem powModGo_eq (p : Nat) (hp : 1 < p) :
    ∀ fuel e m r : Nat, r < p → m < p →
      powModGo p fuel e m r = r * m ^ (e % 2 ^ fuel) % p := by
  have hp0 : 0 < p := by omega
  intro fuel
  induction fuel with
  | zero =>
    intro e m r hr _
    simp [powModGo, Nat.mod_one, Nat.mod_eq_of_lt hr]
  | succ fuel ih =>
    intro e m r hr hm
    by_cases h0 : e = 0
    · simp [powModGo, h0, Nat.mod_eq_of_lt hr]
    · have hstep : powModGo p (fuel + 1) e m r
          = powModGo p fuel (e / 2) (m * m % p)
              (if e % 2 = 1 then r * m % p else r) := by
        simp [powModGo, h0]
      have hr' : (if e % 2 = 1 then r * m % p else r) < p := by
        split
        · exact Nat.mod_lt _ hp0
        · exact hr
      rw [hstep, ih (e / 2) _ _ hr' (Nat.mod_lt _ hp0), mod_two_pow_succ]
      by_cases h2 : e % 2 = 1
      · rw [if_pos h2, h2]
        have m1 : r * m % p * ((m * m % p) ^ (e / 2 % 2 ^ fuel))
            ≡ (r * m) * ((m * m) ^ (e / 2 % 2 ^ fuel)) [MOD p] :=
          Nat.ModEq.mul (Nat.mod_modEq _ _) (Nat.ModEq.pow _ (Nat.mod_modEq _ _))
        have m2 : (r * m) * ((m * m) ^ (e / 2 % 2 ^ fuel))
            = r * m ^ (1 + 2 * (e / 2 % 2 ^ fuel)) := by ring
        rw [m2] at m1
        exact m1
      · have h2' : e % 2 = 0 := by omega
        rw [if_neg h2, h2']
        have m1 : r * ((m * m % p) ^ (e / 2 % 2 ^ fuel))
            ≡ r * ((m * m) ^ (e / 2 % 2 ^ fuel)) [MOD p] :=
          Nat.ModEq.mul_left _ (Nat.ModEq.pow _ (Nat.mod_modEq _ _))
        have m2 : r * ((m * m) ^ (e / 2 % 2 ^ fuel))
            = r * m ^ (0 + 2 * (e / 2 % 2 ^ fuel)) := by ring
        rw [m2] at m1
        exact m1

def powModF (a e p : Nat) : Nat := powModGo p 256 e (a % p) (1 % p)

theorem powModF_eq (a e p : Nat) (hp : 1 < p) (he : e < 2 ^ 256) :
    powModF a e p = a ^ e % p := by
  unfold powModF
  have hp0 : 0 < p := by omega
  rw [Nat.mod_eq_of_lt hp,
    powModGo_eq p hp 256 e (a % p) 1 hp (Nat.mod_lt _ hp0),
    Nat.mod_eq_of_lt he, Nat.one_mul, ← Nat.pow_mod]

/-! ## secp256k1.rs: curve points with the (0,0) identity sentinel -/

/-- Point of secp256k1.rs (lines 13-17): a plain coordinate pair; there is no
identity variant, the pair (0,0) is used as the "zero point". -/
structure SPoint where
  x : Nat
  y : Nat
deriving DecidableEq

namespace SECP256K1

/-- Point::is_zero_point (secp256k1.rs lines 33-37). -/
def is_zero_point (q : SPoint) : Bool := q.x = 0 ∧ q.y = 0

/-- SECP256K1::zero_point (secp256k1.rs lines 96-101). -/
def zero_point : SPoint := ⟨0, 0⟩

/-- SECP256K1::g (secp256k1.rs lines 81-88). -/
def gPoint : SPoint := ⟨GX, GY⟩

/-- SECP256K1::add_points (secp256k1.rs lines 104-143).  The Rust function
starts with `assert!(p1 != p2)` — a panic, modelled as `none` — and has no
check for x(P) = x(Q) with different y: in that case `div_mod` receives the
denominator 0 and, being Fermat exponentiation, silently returns 0. -/
def add_points (p1 p2 : SPoint) : Option SPoint :=
  if p1 = p2 then none
  else if is_zero_point p1 then some p2
  else if is_zero_point p2 then some p1
  else
    let ydiff := RU256.sub_mod p1.y p2.y P256
    let xdiff := RU256.sub_mod p1.x p2.x P256
    let lam := RU256.div_mod ydiff xdiff P256
    let x3 := RU256.sub_mod (RU256.sub_mod (RU256.mul_mod lam lam P256) p1.x P256) p2.x P256
    let y3 := RU256.sub_mod (RU256.mul_mod (RU256.sub_mod p1.x x3 P256) lam P256) p1.y P256
    some ⟨x3, y3⟩

/-- SECP256K1::double_point (secp256k1.rs lines 146-196). -/
def double_point (p1 : SPoint) : SPoint :=
  if is_zero_point p1 then zero_point
  else if p1.y = 0 then zero_point
  else
    let t := RU256.mul_mod (RU256.mul_mod p1.x p1.x P256) 3 P256
    let ty := RU256.mul_mod p1.y 2 P256
    let lam := RU256.div_mod t ty P256
    let x3 := RU256.sub_mod (RU256.sub_mod (RU256.mul_mod lam lam P256) p1.x P256) p1.x P256
    let y3 := RU256.sub_mod (RU256.mul_mod (RU256.sub_mod p1.x x3 P256) lam P256) p1.y P256
    ⟨x3, y3⟩

/-- Loop of SECP256K1::scalar_multiplication (secp256k1.rs lines 255-263,
`use_precomputed = false`): double-and-add over the bits of the scalar from
the most significant downwards; `i+1` means bit `i` is processed next. -/
def smulGo (k : Nat) : Nat → Option SPoint → SPoint → Option SPoint
  | 0, acc, _ => acc
  | i+1, acc, adder =>
    match acc with
    | none => none
    | some r =>
      let r1 := double_point r
      let r2 := if (k >>> i) % 2 = 1 then add_points r1 adder else some r1
      smulGo k i r2 adder

/-- SECP256K1::scalar_multiplication (secp256k1.rs lines 230-267); the loop
runs over `(0..scalar.v.bits()).rev()`. -/
def scalar_multiplication (k : Nat) (curve_point : SPoint) : Option SPoint :=
  smulGo k (nbits k) (some zero_point) curve_point

end SECP256K1

/-! ## Fast mirrors of the secp256k1.rs operations

The `F`-suffixed functions compute the same values as the faithful loops
above (proved below), with each field operation replaced by its closed form,
so that concrete evaluations reduce quickly in the kernel. -/

def subF (a b : Nat) : Nat := (P256 + a % P256 - b % P256) % P256

def invF (b : Nat) : Nat := powModF b (P256 - 2) P256

def add_pointsF (p1 p2 : SPoint) : Option SPoint :=
  if p1 = p2 then none
  else if SECP256K1.is_zero_point p1 then some p2
  else if SECP256K1.is_zero_point p2 then some p1
  else
    let lam := subF p1.y p2.y * invF (subF p1.x p2.x) % P256
    let x3 := subF (subF (lam * lam % P256) p1.x) p2.x
    let y3 := subF (subF p1.x x3 * lam % P256) p1.y
    some ⟨x3, y3⟩

def double_pointF (p1 : SPoint) : SPoint :=
  if SECP256K1.is_zero_point p1 then SECP256K1.zero_point
  else if p1.y = 0 then SECP256K1.zero_point
  else
    let lam := p1.x * p1.x % P256 * 3 % P256 * invF (p1.y * 2 % P256) % P256
    let x3 := subF (subF (lam * lam % P256) p1.x) p1.x
    let y3 := subF (subF p1.x x3 * lam % P256) p1.y
    ⟨x3, y3⟩

def smulGoF (k : Nat) : Nat → Option SPoint → SPoint → Option SPoint
  | 0, acc, _ => acc
  | i+1, acc, adder =>
    match acc with
    | none => none
    | some r =>
      let r1 := double_pointF r
      let r2 := if (k >>> i) % 2 = 1 then add_pointsF r1 adder else some r1
      smulGoF k i r2 adder

def smulF (k : Nat) (q : SPoint) : Option SPoint :=
  smulGoF k (nbits k) (some SECP256K1.zero_point) q

theorem P256_pos : 0 < P256 := by decide
theorem P256_one : 1 < P256 := by decide
theorem P256_le : P256 ≤ 2 ^ 256 := by decide

theorem sub_modP (a b : Nat) : RU256.sub_mod a b P256 = subF a b :=
  sub_mod_eq a b P256 P256_pos

theorem mul_modP (a b : Nat) : RU256.mul_mod a b P256 = a * b % P256 :=
  mul_mod_eq a b P256 P256_pos P256_le

theorem div_modP (a b : Nat) : RU256.div_mod a b P256 = a * invF b % P256 := by
  rw [div_mod_eq a b P256 P256_one P256_le, invF,
    powModF_eq b (P256 - 2) P256 P256_one (by decide)]

theorem add_points_eqF (p1 p2 : SPoint) :
    SECP256K1.add_points p1 p2 = add_pointsF p1 p2 := by
  unfold SECP256K1.add_points add_pointsF
  simp only [sub_modP, mul_modP, div_modP]

theorem double_point_eqF (p1 : SPoint) :
    SECP256K1.double_point p1 = double_pointF p1 := by
  unfold SECP256K1.double_point double_pointF
  simp only [sub_modP, mul_modP, div_modP]

theorem smulGo_eqF (k : Nat) :
    ∀ (fuel : Nat) (acc : Option SPoint) (adder : SPoint),
      SECP256K1.smulGo k fuel acc adder = smulGoF k fuel acc adder := by
  intro fuel
  induction fuel with
  | zero => intro acc adder; rfl
  | succ fuel ih =>
    intro acc adder
    cases acc with
    | none => rfl
    | some r =>
      show SECP256K1.smulGo k fuel _ adder = smulGoF k fuel _ adder
      rw [double_point_eqF, add_points_eqF, ih]

theorem smul_eqF (k : Nat) (q : SPoint) :
    SECP256K1.scalar_multiplication k q = smulF k q := by
  unfold SECP256K1.scalar_multiplication smulF
  rw [smulGo_eqF]

/-- Proof device: the `smulGoF` ladder stopped early — `smulSegF k hi lo acc q`
processes bits hi−1 down to lo of `k` (and equals `smulGoF k hi acc q` at
`lo = 0`, `smulSegF_go`).  It lets a 256-bit ladder evaluation be certified
in 64-bit slices. -/
def smulSegF (k : Nat) : Nat → Nat → Option SPoint → SPoint → Option SPoint
  | 0, _, acc, _ => acc
  | i+1, lo, acc, adder =>
    if i + 1 ≤ lo then acc
    else
      match acc with
      | none => none
      | some r =>
        smulSegF k i lo
          (if (k >>> i) % 2 = 1 then add_pointsF (double_pointF r) adder
           else some (double_pointF r)) adder

/-- A failed accumulator stays failed under any slice. -/
theorem smulSegF_none (k : Nat) : ∀ (m lo : Nat) (adder : SPoint),
    smulSegF k m lo none adder = none := by
  intro m lo adder
  cases m with
  | zero => rfl
  | succ i =>
    simp only [smulSegF]
    split
    · rfl
    · rfl

/-- A slice of width zero is the identity on the accumulator. -/
theorem smulSegF_refl (k : Nat) : ∀ (m : Nat) (acc : Option SPoint) (adder : SPoint),
    smulSegF k m m acc adder = acc := by
  intro m acc adder
  cases m with
  | zero => rfl
  | succ i =>
    simp only [smulSegF]
    rw [if_pos (Nat.le_refl (i + 1))]

/-- `smulGoF` is the slice that runs all the way down to bit 0. -/
theorem smulSegF_go (k : Nat) : ∀ (i : Nat) (acc : Option SPoint) (adder : SPoint),
    smulGoF k i acc adder = smulSegF k i 0 acc adder := by
  intro i
  induction i with
  | zero => intro acc adder; rfl
  | succ i ih =>
    intro acc adder
    cases acc with
    | none =>
      rw [smulSegF_none]
      rfl
    | some r =>
      show smulGoF k i
          (if (k >>> i) % 2 = 1 then add_pointsF (double_pointF r) adder
           else some (double_pointF r)) adder
        = smulSegF k (i + 1) 0 (some r) adder
      have h : smulSegF k (i + 1) 0 (some r) adder
          = smulSegF k i 0
              (if (k >>> i) % 2 = 1 then add_pointsF (double_pointF r) adder
               else some (double_pointF r)) adder := by
        simp only [smulSegF]
        rw [if_neg (Nat.not_succ_le_zero i)]
      rw [h]
      exact ih _ _

/-- Slices compose: running hi−1 … lo equals running hi−1 … mid, then
mid−1 … lo from the reached accumulator. -/
theorem smulSegF_split (k : Nat) : ∀ (hi lo mid : Nat) (acc : Option SPoint) (adder : SPoint),
    lo ≤ mid → mid ≤ hi →
    smulSegF k hi lo acc adder = smulSegF k mid lo (smulSegF k hi mid acc adder) adder := by
  intro hi
  induction hi with
  | zero =>
    intro lo mid acc adder h1 h2
    have hm : mid = 0 := Nat.le_zero.mp h2
    subst hm
    have hl : lo = 0 := Nat.le_zero.mp h1
    subst hl
    simp only [smulSegF_refl]
  | succ i ih =>
    intro lo mid acc adder h1 h2
    by_cases hm : mid = i + 1
    · subst hm
      rw [smulSegF_refl]
    · have h2' : mid ≤ i := by omega
      have hlo : ¬ (i + 1 ≤ lo) := by omega
      have hm' : ¬ (i + 1 ≤ mid) := by omega
      cases acc with
      | none => simp only [smulSegF_none]
      | some r =>
        simp only [smulSegF]
        rw [if_neg hlo, if_neg hm']
        exact ih lo mid _ adder h1 h2'

/-! ## curves.rs: the `U256`-draft of the curve, with `Option` coordinates

Points here carry their curve and use `Option` for coordinates; the identity
is the static `INF` with both coordinates `None` and an all-zero curve.
`primitive_types::U256` arithmetic panics on overflow/underflow and on
division or remainder by zero; `U256::as_u128` panics above `2^128`;
`i128` overflow is modelled with two's-complement wrapping (release build).
Panics are tagged errors. -/

inductive CErr where
  /-- Remainder or division by zero. -/
  | divZero
  /-- Overflow of `+`, `*`, `pow`, or underflow of `-`. -/
  | overflow
  /-- `Option::unwrap` on `None`. -/
  | unwrapNone
  /-- `U256::as_u128` on a value at least `2^128`. -/
  | castBig
deriving DecidableEq

structure CCurve where
  p : Nat
  a : Nat
  b : Nat
deriving DecidableEq

structure CPoint where
  curve : CCurve
  x : Option Nat
  y : Option Nat
deriving DecidableEq

namespace Curves

/-- Static INF (curves.rs lines 155-163). -/
def INF : CPoint := ⟨⟨0, 0, 0⟩, none, none⟩

def u256add (a b : Nat) : Except CErr Nat :=
  if a + b < 2 ^ 256 then .ok (a + b) else .error .overflow

def u256sub (a b : Nat) : Except CErr Nat :=
  if b ≤ a then .ok (a - b) else .error .overflow

def u256mul (a b : Nat) : Except CErr Nat :=
  if a * b < 2 ^ 256 then .ok (a * b) else .error .overflow

/-- The `uint` crate's `pow` (exponentiation by squaring with panicking
multiplications): every intermediate is a power of the base not exceeding
the final result, so it panics exactly when the result overflows
(for exponent at least 1). -/
def u256pow (a e : Nat) : Except CErr Nat :=
  if e = 0 then .ok 1 else if a ^ e < 2 ^ 256 then .ok (a ^ e) else .error .overflow

def u256rem (a b : Nat) : Except CErr Nat :=
  if b = 0 then .error .divZero else .ok (a % b)

/-- Unwrap of an `Option` coordinate. -/
def getsome (o : Option Nat) : Except CErr Nat :=
  match o with
  | some v => .ok v
  | none => .error .unwrapNone

/-- Two's-complement wrapping into the `i128` range. -/
def wrap128 (z : Int) : Int :=
  (z + Int.ofNat (2 ^ 127)) % Int.ofNat (2 ^ 128) - Int.ofNat (2 ^ 127)

/-- Loop of extended_euclidean_algorithm (curves.rs lines 11-27).  The `s`/`t`
coefficients live in `i128`; the quotient is narrowed with `as_u128`
(panicking above `2^128`) and reinterpreted as `i128`. -/
def xgcdGo : Nat → Nat → Nat → Int → Int → Int → Int → Except CErr (Nat × Int × Int)
  | 0, last_r, _r, last_s, _s, last_t, _t => .ok (last_r, last_s, last_t)
  | fuel+1, last_r, r, last_s, s, last_t, t =>
    if r = 0 then .ok (last_r, last_s, last_t)
    else if 2 ^ 128 ≤ last_r / r then .error .castBig
    else
      xgcdGo fuel r (last_r - last_r / r * r)
        s (wrap128 (last_s - wrap128 (wrap128 (Int.ofNat (last_r / r)) * s)))
        t (wrap128 (last_t - wrap128 (wrap128 (Int.ofNat (last_r / r)) * t)))

/-- extended_euclidean_algorithm (curves.rs lines 11-27).  Each iteration
replaces `r` with `last_r mod r < r`, so `b + 1` rounds of fuel always reach
the `r = 0` exit. -/
def extended_euclidean (a b : Nat) : Except CErr (Nat × Int × Int) :=
  xgcdGo (b + 1) a b 1 0 0 1

/-- Modular multiplicative inverse (curves.rs lines 30-36): take the Bezout
coefficient of `n`, shift it by `p` if negative (`p.as_u128() as i128`,
panicking for `p ≥ 2^128`), reinterpret as `u128` and reduce mod `p`. -/
def inv (n p : Nat) : Except CErr Nat :=
  match extended_euclidean n p with
  | .error e => .error e
  | .ok (_, x, _) =>
    if x < 0 then
      if 2 ^ 128 ≤ p then .error .castBig
      else u256rem ((wrap128 (x + wrap128 (Int.ofNat p))) % Int.ofNat (2 ^ 128)).toNat p
    else u256rem (x % Int.ofNat (2 ^ 128)).toNat p

/-- Point addition, `impl Add for Point` (curves.rs lines 54-104). -/
def cadd (P Q : CPoint) : Except CErr CPoint :=
  if P = INF then .ok Q
  else if Q = INF then .ok P
  else if P.x = Q.x ∧ P.y ≠ Q.y then .ok INF
  else do
    let p := P.curve.p
    let m ← if P.x = Q.x then do
        let x1 ← getsome P.x
        let y1 ← getsome P.y
        let x1sq ← u256pow x1 2
        let t1 ← u256mul 3 x1sq
        let t2 ← u256add t1 P.curve.a
        let num ← u256rem t2 p
        let t3 ← u256mul 2 y1
        let den ← u256rem t3 p
        let iv ← inv den p
        let t4 ← u256mul num iv
        u256rem t4 p
      else do
        let y1 ← getsome P.y
        let y2 ← getsome Q.y
        let x1 ← getsome P.x
        let x2 ← getsome Q.x
        let t1 ← u256add y1 p
        let t2 ← u256sub t1 y2
        let num ← u256rem t2 p
        let t3 ← u256add x1 p
        let t4 ← u256sub t3 x2
        let den ← u256rem t4 p
        let iv ← inv den p
        let t5 ← u256mul num iv
        u256rem t5 p
    let x1 ← getsome P.x
    let y1 ← getsome P.y
    let x2 ← getsome Q.x
    let msq ← u256pow m 2
    let t1 ← u256add msq p
    let t2 ← u256sub t1 x1
    let t3 ← u256add t2 p
    let t4 ← u256sub t3 x2
    let rx ← u256rem t4 p
    let t5 ← u256add x1 p
    let t6 ← u256sub t5 rx
    let t7 ← u256mul m t6
    let t8 ← u256add t7 p
    let t9 ← u256sub t8 y1
    let ry ← u256rem t9 p
    .ok ⟨P.curve, some rx, some ry⟩

end Curves

deriving instance DecidableEq for Except

theorem xgcdGo_no_divZero :
    ∀ (fuel last_r r : Nat) (ls s lt t : Int),
      Curves.xgcdGo fuel last_r r ls s lt t ≠ .error .divZero := by
  intro fuel
  induction fuel with
  | zero => intro last_r r ls s lt t; simp [Curves.xgcdGo]
  | succ fuel ih =>
    intro last_r r ls s lt t
    simp only [Curves.xgcdGo]
    split
    · simp
    · split
      · simp
      · exact ih _ _ _ _ _ _

theorem inv_no_divZero (n p : Nat) (hp : 0 < p) :
    Curves.inv n p ≠ .error .divZero := by
  have hp0 : ¬ p = 0 := by omega
  unfold Curves.inv
  rcases hE : Curves.extended_euclidean n p with e | v
  · have hE' : Curves.xgcdGo (p + 1) n p 1 0 0 1 = Except.error e := hE
    intro hcontra
    simp only [Except.error.injEq] at hcontra
    exact xgcdGo_no_divZero (p + 1) n p 1 0 0 1 (by rw [hE', hcontra])
  · obtain ⟨g, x, t⟩ := v
    intro hcontra
    dsimp only at hcontra
    by_cases hx : x < 0
    · by_cases hbig : 2 ^ 128 ≤ p
      · rw [if_pos hx, if_pos hbig] at hcontra
        exact absurd hcontra (by decide)
      · rw [if_pos hx, if_neg hbig] at hcontra
        unfold Curves.u256rem at hcontra
        rw [if_neg hp0] at hcontra
        exact Except.noConfusion hcontra
    · rw [if_neg hx] at hcontra
      unfold Curves.u256rem at hcontra
      rw [if_neg hp0] at hcontra
      exact Except.noConfusion hcontra

/-! ## Byte-string helpers -/

/-- Big-endian interpretation of a byte string
(`U256::from_big_endian`, `BigUint::from_bytes_be`). -/
def fromBE (bs : List Nat) : Nat := bs.foldl (fun acc b => acc * 256 + b) 0

/-- Fixed-width big-endian serialisation, most significant byte first;
`beBytesGo fuel n acc` prepends the low `fuel` bytes of `n` to `acc`. -/
def beBytesGo : Nat → Nat → List Nat → List Nat
  | 0, _, acc => acc
  | fuel+1, n, acc => beBytesGo fuel (n / 256) (n % 256 :: acc)

/-- Left-padded big-endian bytes of width `w` (`to_big_endian`). -/
def beBytesN (w n : Nat) : List Nat := beBytesGo w n []

/-- Little-endian bytes of width `w` (`u32::to_le_bytes` etc.);
least significant byte first. -/
def leBytesN : Nat → Nat → List Nat
  | 0, _ => []
  | fuel+1, n => n % 256 :: leBytesN fuel (n / 256)

/-! ## sha256.rs: SHA-256 from first principles -/

namespace Sha256

def u32m (x : Nat) : Nat := x % 4294967296

/-- rotr (sha256.rs lines 16-18): `(x >> n) | (x << (32 - n))` on `u32`. -/
def rotr (x n : Nat) : Nat := (x >>> n) ||| u32m (x <<< (32 - n))

def sig0 (x : Nat) : Nat := rotr x 7 ^^^ rotr x 18 ^^^ (x >>> 3)

def sig1 (x : Nat) : Nat := rotr x 17 ^^^ rotr x 19 ^^^ (x >>> 10)

def capsig0 (x : Nat) : Nat := rotr x 2 ^^^ rotr x 13 ^^^ rotr x 22

def capsig1 (x : Nat) : Nat := rotr x 6 ^^^ rotr x 11 ^^^ rotr x 25

/-- ch (sha256.rs lines 40-42); `!x` on `u32` is `2^32 - 1 - x`. -/
def ch (x y z : Nat) : Nat := (x &&& y) ^^^ ((4294967295 - x) &&& z)

def maj (x y z : Nat) : Nat := (x &&& y) ^^^ (x &&& z) ^^^ (y &&& z)

/-- Round constants K (sha256.rs lines 1-10). -/
def K : List Nat := [
  0x428A2F98, 0x71374491, 0xB5C0FBCF, 0xE9B5DBA5, 0x3956C25B, 0x59F111F1, 0x923F82A4, 0xAB1C5ED5,
  0xD807AA98, 0x12835B01, 0x243185BE, 0x550C7DC3, 0x72BE5D74, 0x80DEB1FE, 0x9BDC06A7, 0xC19BF174,
  0xE49B69C1, 0xEFBE4786, 0x0FC19DC6, 0x240CA1CC, 0x2DE92C6F, 0x4A7484AA, 0x5CB0A9DC, 0x76F988DA,
  0x983E5152, 0xA831C66D, 0xB00327C8, 0xBF597FC7, 0xC6E00BF3, 0xD5A79147, 0x06CA6351, 0x14292967,
  0x27B70A85, 0x2E1B2138, 0x4D2C6DFC, 0x53380D13, 0x650A7354, 0x766A0ABB, 0x81C2C92E, 0x92722C85,
  0xA2BFE8A1, 0xA81A664B, 0xC24B8B70, 0xC76C51A3, 0xD192E819, 0xD6990624, 0xF40E3585, 0x106AA070,
  0x19A4C116, 0x1E376C08, 0x2748774C, 0x34B0BCB5, 0x391C0CB3, 0x4ED8AA4A, 0x5B9CCA4F, 0x682E6FF3,
  0x748F82EE, 0x78A5636F, 0x84C87814, 0x8CC70208, 0x90BEFFFA, 0xA4506CEB, 0xBEF9A3F7, 0xC67178F2]

/-- Initial hash state H0 (sha256.rs lines 12-14). -/
def H0 : List Nat := [
  0x6A09E667, 0xBB67AE85, 0x3C6EF372, 0xA54FF53A, 0x510E527F, 0x9B05688C, 0x1F83D9AB, 0x5BE0CD19]

/-- pad (sha256.rs lines 48-56): append 0x80, zero-fill to 56 mod 64, then
the 8-byte big-endian bit length of the original input. -/
def pad (b : List Nat) : List Nat :=
  b ++ [0x80] ++ List.replicate ((56 + 64 - (b.length + 1) % 64) % 64) 0
    ++ beBytesN 8 (b.length * 8)

/-- Big-endian 4-byte word loading of a 64-byte chunk (sha256.rs lines 63-71). -/
def wordsOf : List Nat → List Nat
  | b0 :: b1 :: b2 :: b3 :: rest => (((b0 * 256 + b1) * 256 + b2) * 256 + b3) :: wordsOf rest
  | _ => []

/-- Message-schedule extension (sha256.rs lines 72-77), run with fuel 48. -/
def extendW : Nat → List Nat → List Nat
  | 0, w => w
  | fuel+1, w =>
    extendW fuel (w ++ [u32m (sig1 (w.getD (w.length - 2) 0) + w.getD (w.length - 7) 0
      + sig0 (w.getD (w.length - 15) 0) + w.getD (w.length - 16) 0)])

/-- The 64 compression rounds (sha256.rs lines 88-103) over the zipped
`(K[t], w[t])` pairs; the state is the list `[a,b,c,d,e,f,g,h7]`. -/
def crounds : List (Nat × Nat) → List Nat → List Nat
  | [], st => st
  | (kt, wt) :: rest, st =>
    match st with
    | [a, b, c, d, e, f, g, h7] =>
      crounds rest
        [u32m (u32m (h7 + capsig1 e + ch e f g + kt + wt) + u32m (capsig0 a + maj a b c)),
         a, b, c, u32m (d + u32m (h7 + capsig1 e + ch e f g + kt + wt)), e, f, g]
    | other => other

/-- One 64-byte chunk (sha256.rs lines 62-113). -/
def compress (h : List Nat) (chunk : List Nat) : List Nat :=
  let w := extendW 48 (wordsOf chunk)
  let st := crounds (K.zip w) h
  List.zipWith (fun x y => u32m (x + y)) h st

/-- Split into 64-byte chunks; fuel bounds the number of chunks. -/
def chunks64 : Nat → List Nat → List (List Nat)
  | 0, _ => []
  | fuel+1, bs => if bs = [] then [] else bs.take 64 :: chunks64 fuel (bs.drop 64)

end Sha256

/-- sha256 (sha256.rs lines 58-116). -/
def sha256 (b : List Nat) : List Nat :=
  ((Sha256.chunks64 (Sha256.pad b).length (Sha256.pad b)).foldl Sha256.compress
    Sha256.H0).map (beBytesN 4) |>.flatten

/-- hash256 (sha256.rs lines 119-121): double SHA-256. -/
def hash256 (b : List Nat) : List Nat := sha256 (sha256 b)

example : sha256 [0x61, 0x62, 0x63] =
    [0xBA, 0x78, 0x16, 0xBF, 0x8F, 0x01, 0xCF, 0xEA, 0x41, 0x41, 0x40, 0xDE, 0x5D, 0xAE,
     0x22, 0x23, 0xB0, 0x03, 0x61, 0xA3, 0x96, 0x17, 0x7A, 0x9C, 0xB4, 0x10, 0xFF, 0x61,
     0xF2, 0x00, 0x15, 0xAD] := by decide

/-! ## keys.rs: SEC encoding and decoding of public keys -/

/-- The `uint` crate's panicking `pow` as used by keys.rs (`x.pow(3)`,
`y2.pow(exponent)`): squaring exponentiation whose intermediates are powers
of the base bounded by the result, panicking exactly when the result
overflows (exponent at least 1). -/
def powO (a e : Nat) : Option Nat :=
  if e = 0 then some 1 else if a ^ e < 2 ^ 256 then some (a ^ e) else none

/-- Panicking `U256` addition. -/
def addO (a b : Nat) : Option Nat := if a + b < 2 ^ 256 then some (a + b) else none

/-- Panicking `U256` subtraction. -/
def subO (a b : Nat) : Option Nat := if b ≤ a then some (a - b) else none

/-- Panicking `U256` remainder. -/
def remO (a b : Nat) : Option Nat := if b = 0 then none else some (a % b)

/-- PublicKey::decode (keys.rs lines 50-79).  The compressed branch computes
`y2 = (x.pow(3) + 7) % p` with the plain (panicking, non-modular) `U256`
power, truncates the exponent `(p + 1) >> 2` to its low 32 bits
(`low_u32`), raises `y2` to it again with the non-modular `pow`, and
negates via `p - y` when the parity disagrees with the prefix. -/
def pkDecode (b : List Nat) (c : CCurve) : Option CPoint :=
  if ¬ (b.length = 33 ∨ b.length = 65) then none
  else if b.getD 0 0 = 4 then
    if b.length = 65 then
      some ⟨c, some (fromBE ((b.drop 1).take 32)), some (fromBE ((b.drop 33).take 32))⟩
    else none
  else if ¬ (b.getD 0 0 = 2 ∨ b.getD 0 0 = 3) then none
  else
    (powO (fromBE ((b.drop 1).take 32)) 3).bind fun x3 =>
    (addO x3 7).bind fun x37 =>
    (remO x37 c.p).bind fun y2 =>
    (addO c.p 1).bind fun p1 =>
    (powO y2 ((p1 >>> 2) % 4294967296)).bind fun y0 =>
    (if (y0 % 2 = 0 ↔ b.getD 0 0 = 2) then some y0 else subO c.p y0).bind fun y =>
    some ⟨c, some (fromBE ((b.drop 1).take 32)), some y⟩

/-- PublicKey::encode with `hash160 = false` (keys.rs lines 81-111):
compressed → parity prefix 2/3 and the 32-byte big-endian x; uncompressed →
prefix 4 and both coordinates.  Unwraps of absent coordinates are `none`. -/
def pkEncode (pt : CPoint) (compressed : Bool) : Option (List Nat) :=
  match pt.x, pt.y with
  | some x, some y =>
    if compressed then some ((if y % 2 = 0 then 2 else 3) :: beBytesN 32 x)
    else some (4 :: (beBytesN 32 x ++ beBytesN 32 y))
  | _, _ => none

/-- The secp256k1 curve bundle of bitcoin.rs (`BITCOIN.gen.G.curve`). -/
def secpCurve : CCurve := ⟨P256, 0, 7⟩

/-- The generator as a curves.rs point. -/
def gCPoint : CPoint := ⟨secpCurve, some GX, some GY⟩

/-! ## keys.rs: Base58Check -/

/-- The Base58 alphabet (keys.rs line 136). -/
def ALPHA : List Char :=
  ['1','2','3','4','5','6','7','8','9','A','B','C','D','E','F','G','H','J','K','L','M',
   'N','P','Q','R','S','T','U','V','W','X','Y','Z','a','b','c','d','e','f','g','h','i',
   'j','k','m','n','o','p','q','r','s','t','u','v','w','x','y','z']

/-- Division loop of b58encode (keys.rs lines 141-146), emitting digits most
significant first; 44 rounds exhaust any value below `2^256 < 58^44`. -/
def b58digits : Nat → Nat → List Char → List Char
  | 0, _, acc => acc
  | fuel+1, n, acc =>
    if n = 0 then acc else b58digits fuel (n / 58) (ALPHA.getD (n % 58) '1' :: acc)

def countLeadZeros : List Nat → Nat
  | [] => 0
  | x :: r => if x = 0 then countLeadZeros r + 1 else 0

/-- b58encode (keys.rs lines 138-154); `U256::from_big_endian` asserts the
input is at most 32 bytes. -/
def b58encode (b : List Nat) : Option (List Char) :=
  if b.length ≤ 32 then
    some (List.replicate (countLeadZeros b) '1' ++ b58digits 44 (fromBE b) [])
  else none

/-- Character-accumulation loop of b58decode (keys.rs lines 158-160):
`n = n * 58 + v`, with the panicking `U256` multiply and add, and a panicking
`unwrap` for characters outside the alphabet. -/
def b58fold : List Char → Nat → Option Nat
  | [], n => some n
  | c :: rest, n =>
    match ALPHA.findIdx? (fun a => a = c) with
    | none => none
    | some v => if n * 58 + v < 2 ^ 256 then b58fold rest (n * 58 + v) else none

/-- `U256::to_big_endian` (called by b58decode): requires a 32-byte buffer
and panics otherwise.  b58decode passes a freshly created empty `Vec`. -/
def u256ToBigEndian (n : Nat) (buf : List Nat) : Option (List Nat) :=
  if buf.length = 32 then some (beBytesN 32 n) else none

def countLeadOnes : List Char → Nat
  | [] => 0
  | c :: r => if c = '1' then countLeadOnes r + 1 else 0

/-- b58decode (keys.rs lines 156-174). -/
def b58decode (s : List Char) : Option (List Nat) :=
  (b58fold s 0).bind fun n =>
  (u256ToBigEndian n []).bind fun bytes =>
  some (List.replicate (countLeadOnes s) 0 ++ bytes)

/-- address_to_pkb_hash (keys.rs lines 176-181): Base58-decode, recompute the
double-SHA-256 checksum over the first 21 bytes, compare with the last 4
(`assert_eq!`), and return bytes 1..21. -/
def address_to_pkb_hash (s : List Char) : Option (List Nat) :=
  (b58decode s).bind fun ba =>
  if (hash256 (ba.take 21)).take 4 = ba.drop 21 then some ((ba.drop 1).take 20)
  else none

/-! ## block.rs: header validation -/

structure BlockH where
  version : Nat
  prev_block : List Nat
  merkle_root : List Nat
  timestamp : Nat
  bits : List Nat
  nonce : List Nat
deriving DecidableEq

/-- encode_int (block.rs lines 22-24): little-endian. -/
def encode_int (i nbytes : Nat) : List Nat := leBytesN nbytes i

/-- Block::encode (block.rs lines 109-122): the stored prev-block and merkle
root are byte-reversed back to wire order. -/
def blockEncode (b : BlockH) : List Nat :=
  encode_int b.version 4 ++ b.prev_block.reverse ++ b.merkle_root.reverse
    ++ encode_int b.timestamp 4 ++ b.bits ++ b.nonce

def hexCharsList : List Char := "0123456789abcdef".toList

/-- Lowercase hex encoding (`hex::encode`). -/
def hexEncode (bs : List Nat) : List Char :=
  (bs.map fun b => [hexCharsList.getD (b / 16) '0', hexCharsList.getD (b % 16) '0']).flatten

def hexDigit? (c : Char) : Option Nat :=
  match hexCharsList.findIdx? (fun a => a = c) with
  | some v => some v
  | none =>
    match (['A','B','C','D','E','F'].findIdx? (fun a => a = c)) with
    | some v => some (v + 10)
    | none => none

/-- `hex::decode` with `unwrap`: panics on odd length or bad digits. -/
def hexDecode : List Char → Option (List Nat)
  | [] => some []
  | c1 :: c2 :: rest =>
    (hexDigit? c1).bind fun h =>
    (hexDigit? c2).bind fun l =>
    (hexDecode rest).bind fun r => some ((h * 16 + l) :: r)
  | [_] => none

/-- Block::id (block.rs lines 124-128) as the hex string of the
byte-reversed double SHA-256 of the encoding. -/
def blockIdChars (b : BlockH) : List Char :=
  hexEncode (hash256 (blockEncode b)).reverse

/-- Modelled from the spec: `crate::curves::pow`, called by bits_to_target,
does not exist in the sources; per the spec the target is
`coeff * 256^(exp - 3)`, so `pow` is exact exponentiation.

bits_to_target (block.rs lines 26-34): the three coefficient bytes are
reversed and copied into the front — the most significant end — of the
32-byte big-endian buffer; the `bitcoin_num` Uint256 multiplication wraps
modulo `2^256`, and the `u8` exponent subtraction wraps modulo 256. -/
def bits_to_target (bits : List Nat) : Nat :=
  fromBE ((bits.take 3).reverse ++ List.replicate 29 0)
    * 256 ^ ((bits.getD 3 0 + 256 - 3) % 256) % 2 ^ 256

/-- Block::validate (block.rs lines 142-153): hex-decode the id string, read
it as a 32-byte big-endian integer (`try_into` panics on any other length)
and compare with the target. -/
def blockValidate (b : BlockH) : Option Bool :=
  (hexDecode (blockIdChars b)).bind fun hv =>
  if hv.length = 32 then some (decide (fromBE hv < bits_to_target b.bits)) else none

/-! ## Spec-modelled curve arithmetic for signature.rs

signature.rs calls `crate::curves::inv` and point `Mul`/`Add` of a
big-integer (`BigUint`) draft of curves/keys that is not among the sources
(the `curves.rs` present uses `U256` and different signatures).  These
operations are modelled from the spec: points are `Option (Nat × Nat)` with
`none` the Identity (spec section 3 "Point"), addition and doubling follow
section 4.3.1/4.3.2, the ladder follows section 4.3.3, and the modular
inverse is the Fermat variant of section 4.1 (`exp_mod(a, p-2, p)`). -/

namespace SpecEC

/-- Modelled from the spec: `inv_mod(a, m)` as `exp_mod(a, m - 2, m)`
(section 4.1, Fermat variant for prime `m`). -/
def finv (a m : Nat) : Nat := powModF a (m - 2) m

/-- Modelled from the spec: point doubling (section 4.3.2).  Identity
doubles to Identity; `y = 0` doubles to Identity; otherwise
λ = (3x²)/(2y) mod p (a = 0 on secp256k1). -/
def pdouble (q : Option (Nat × Nat)) : Option (Nat × Nat) :=
  match q with
  | none => none
  | some (x, y) =>
    if y = 0 then none
    else
      let lam := 3 * (x * x % P256) % P256 * finv (2 * y % P256) P256 % P256
      let x3 := subF (subF (lam * lam % P256) x) x
      some (x3, subF (lam * subF x x3 % P256) y)

/-- Modelled from the spec: point addition (section 4.3.1) with the checks
in the spec's order: identity operands, then P = −Q, then P = Q (doubling),
then the chord slope. -/
def padd (p1 p2 : Option (Nat × Nat)) : Option (Nat × Nat) :=
  match p1, p2 with
  | none, q => q
  | p, none => p
  | some (x1, y1), some (x2, y2) =>
    if x1 = x2 ∧ y1 ≠ y2 then none
    else if x1 = x2 ∧ y1 = y2 then pdouble (some (x1, y1))
    else
      let lam := subF y2 y1 * finv (subF x2 x1) P256 % P256
      let x3 := subF (subF (lam * lam % P256) x1) x2
      some (x3, subF (lam * subF x1 x3 % P256) y1)

/-- Modelled from the spec: the left-to-right double-and-add ladder
(section 4.3.3), bit `i` processed when the fuel is `i + 1`. -/
def smulGo (k : Nat) : Nat → Option (Nat × Nat) → Option (Nat × Nat) → Option (Nat × Nat)
  | 0, r, _ => r
  | i+1, r, q =>
    smulGo k i (if (k >>> i) % 2 = 1 then padd (pdouble r) q else pdouble r) q

/-- Modelled from the spec: `k·P` (section 4.3.3); `R` starts at Identity. -/
def smul (k : Nat) (q : Option (Nat × Nat)) : Option (Nat × Nat) :=
  smulGo k (nbits k) none q

/-- The generator as a spec-modelled point. -/
def gPt : Option (Nat × Nat) := some (GX, GY)

/-- Proof device: the `smulGo` ladder stopped early — `smulSeg k hi lo r q`
processes bits hi−1 down to lo of `k` (and equals `smulGo k hi r q` at
`lo = 0`, `smulSeg_go`).  It lets a 256-bit ladder evaluation be certified
in 64-bit slices. -/
def smulSeg (k : Nat) : Nat → Nat → Option (Nat × Nat) → Option (Nat × Nat) → Option (Nat × Nat)
  | 0, _, r, _ => r
  | i+1, lo, r, q =>
    if i + 1 ≤ lo then r
    else smulSeg k i lo (if (k >>> i) % 2 = 1 then padd (pdouble r) q else pdouble r) q

/-- A slice of width zero is the identity on the accumulator. -/
theorem smulSeg_refl (k : Nat) : ∀ (m : Nat) (r q : Option (Nat × Nat)),
    smulSeg k m m r q = r := by
  intro m r q
  cases m with
  | zero => rfl
  | succ i =>
    simp only [smulSeg]
    rw [if_pos (Nat.le_refl (i + 1))]

/-- `smulGo` is the slice that runs all the way down to bit 0. -/
theorem smulSeg_go (k : Nat) : ∀ (i : Nat) (r q : Option (Nat × Nat)),
    smulGo k i r q = smulSeg k i 0 r q := by
  intro i
  induction i with
  | zero => intro r q; rfl
  | succ i ih =>
    intro r q
    show smulGo k i (if (k >>> i) % 2 = 1 then padd (pdouble r) q else pdouble r) q
      = smulSeg k (i + 1) 0 r q
    have h : smulSeg k (i + 1) 0 r q
        = smulSeg k i 0 (if (k >>> i) % 2 = 1 then padd (pdouble r) q else pdouble r) q := by
      simp only [smulSeg]
      rw [if_neg (Nat.not_succ_le_zero i)]
    rw [h]
    exact ih _ _

/-- Slices compose: running hi−1 … lo equals running hi−1 … mid, then
mid−1 … lo from the reached accumulator. -/
theorem smulSeg_split (k : Nat) : ∀ (hi lo mid : Nat) (r q : Option (Nat × Nat)),
    lo ≤ mid → mid ≤ hi →
    smulSeg k hi lo r q = smulSeg k mid lo (smulSeg k hi mid r q) q := by
  intro hi
  induction hi with
  | zero =>
    intro lo mid r q h1 h2
    have hm : mid = 0 := Nat.le_zero.mp h2
    subst hm
    have hl : lo = 0 := Nat.le_zero.mp h1
    subst hl
    simp only [smulSeg_refl]
  | succ i ih =>
    intro lo mid r q h1 h2
    by_cases hm : mid = i + 1
    · subst hm
      rw [smulSeg_refl]
    · have h2' : mid ≤ i := by omega
      have hlo : ¬ (i + 1 ≤ lo) := by omega
      have hm' : ¬ (i + 1 ≤ mid) := by omega
      simp only [smulSeg]
      rw [if_neg hlo, if_neg hm']
      exact ih lo mid _ q h1 h2'

end SpecEC

/-! ## signature.rs: ECDSA sign and verify -/

inductive VErr where
  /-- `assert!` failure on the range of `r` or `s`. -/
  | rsRange
  /-- `Option::unwrap` on the absent x-coordinate of the identity. -/
  | unwrapNone
deriving DecidableEq

/-- sign_ecdsa (signature.rs lines 68-96).  The Rust function draws the
nonce internally from the CSPRNG (`gen_secret_key(n)`); the drawn nonce is
the explicit argument `k` here.  `BigUint` arithmetic is exact, so
`inv(k, n) * (z + sk * r)` is computed without intermediate reduction; the
final `(s + n) % n` of the source is kept.  `P.x.unwrap()` on the identity
panics (`none`). -/
def sign_ecdsa (secret_key : Nat) (message : List Nat) (k : Nat) : Option (Nat × Nat) :=
  let z := fromBE (hash256 message)
  match SpecEC.smul k SpecEC.gPt with
  | none => none
  | some P =>
    let r := P.1
    let s := SpecEC.finv k N256 * (z + secret_key * r) % N256
    let s2 := if N256 / 2 < s then N256 - s else s
    some (r, (s2 + N256) % N256)

/-- verify_ecdsa (signature.rs lines 98-114): `assert!` the ranges of `r`
and `s`, compute `w = s⁻¹ mod n`, `u1 = z·w mod n`, `u2 = r·w mod n`,
`P = u1·G + u2·Q`, and `P.x.unwrap() == r`. -/
def verify_ecdsa (public_key : Option (Nat × Nat)) (message : List Nat) (r s : Nat) :
    Except VErr Bool :=
  if ¬ (1 ≤ r ∧ r < N256) then .error .rsRange
  else if ¬ (1 ≤ s ∧ s < N256) then .error .rsRange
  else
    let z := fromBE (hash256 message)
    let w := SpecEC.finv s N256
    match SpecEC.padd (SpecEC.smul (z * w % N256) SpecEC.gPt)
        (SpecEC.smul (r * w % N256) public_key) with
    | none => .error .unwrapNone
    | some P => .ok (P.1 == r)

/-- Unfolding of `verify_ecdsa` when both range assertions pass: the result
is determined by the point u1·G + u2·Q alone. -/
theorem verify_eval (q : Option (Nat × Nat)) (msg : List Nat) (r s : Nat)
    (h1 : 1 ≤ r ∧ r < N256) (h2 : 1 ≤ s ∧ s < N256) :
    verify_ecdsa q msg r s =
      match SpecEC.padd
          (SpecEC.smul (fromBE (hash256 msg) * SpecEC.finv s N256 % N256) SpecEC.gPt)
          (SpecEC.smul (r * SpecEC.finv s N256 % N256) q) with
      | none => .error .unwrapNone
      | some P => .ok (P.1 == r) := by
  unfold verify_ecdsa
  rw [if_neg (not_not_intro h1), if_neg (not_not_intro h2)]

/-! ## Claim theorems -/

/-- C7: for all U256 operands a, b and every modulus 0 < p < 2^256,
`add_mod(a, b, p)` is exactly `(a + b) mod p` and `mul_mod(a, b, p)` is
exactly `(a * b) mod p` — the unique representatives in `[0, p)`, with no
observable wrap-around before reduction. -/
theorem c7_add_mul_mod_exact (a b p : Nat) (_ha : a < 2 ^ 256) (_hb : b < 2 ^ 256)
    (hp : 0 < p) (hp2 : p < 2 ^ 256) :
    RU256.add_mod a b p = (a + b) % p ∧ RU256.mul_mod a b p = a * b % p :=
  ⟨add_mod_eq a b p hp (le_of_lt hp2), mul_mod_eq a b p hp (le_of_lt hp2)⟩

/-- Witness for C7 at a = 0xBD, b = 0x2B, p = 0xB (the repo's own
`ru256_addition_case_1`). -/
theorem c7_witness :
    0 < 0xB ∧ RU256.add_mod 0xBD 0x2B 0xB = (0xBD + 0x2B) % 0xB
      ∧ RU256.mul_mod 0xBD 0x2B 0xB = 0xBD * 0x2B % 0xB :=
  ⟨by decide,
   (c7_add_mul_mod_exact 0xBD 0x2B 0xB (by decide) (by decide) (by decide) (by decide)).1,
   (c7_add_mul_mod_exact 0xBD 0x2B 0xB (by decide) (by decide) (by decide) (by decide)).2⟩

/-- C10: in secp256k1.rs the group identity is the affine pair (0, 0):
`is_zero_point` holds exactly for x = 0 and y = 0, scalar multiplication by
0 returns the pair (0, 0), `add_points` returns the other operand whenever
one operand has both coordinates zero (for distinct operands, as its
`assert!` requires), and `double_point` maps every such point to the zero
point. -/
theorem c10_zero_sentinel_is_identity :
    (∀ q : SPoint, SECP256K1.is_zero_point q = true ↔ q.x = 0 ∧ q.y = 0) ∧
    (∀ q : SPoint, SECP256K1.scalar_multiplication 0 q = some SECP256K1.zero_point) ∧
    (∀ q1 q2 : SPoint, q1 ≠ q2 → SECP256K1.is_zero_point q1 = true →
      SECP256K1.add_points q1 q2 = some q2) ∧
    (∀ q1 q2 : SPoint, q1 ≠ q2 → SECP256K1.is_zero_point q1 = false →
      SECP256K1.is_zero_point q2 = true → SECP256K1.add_points q1 q2 = some q1) ∧
    (∀ q : SPoint, SECP256K1.is_zero_point q = true →
      SECP256K1.double_point q = SECP256K1.zero_point) := by
  refine ⟨?_, ?_, ?_, ?_, ?_⟩
  · intro q
    simp [SECP256K1.is_zero_point]
  · intro q
    rfl
  · intro q1 q2 hne hz
    simp [SECP256K1.add_points, hne, hz]
  · intro q1 q2 hne hz1 hz2
    simp [SECP256K1.add_points, hne, hz1, hz2]
  · intro q hz
    simp [SECP256K1.double_point, hz]

/-- Witness for C10 at the zero point and the generator. -/
theorem c10_witness :
    SECP256K1.scalar_multiplication 0 SECP256K1.gPoint = some SECP256K1.zero_point ∧
    SECP256K1.add_points SECP256K1.zero_point SECP256K1.gPoint = some SECP256K1.gPoint ∧
    SECP256K1.add_points SECP256K1.gPoint SECP256K1.zero_point = some SECP256K1.gPoint ∧
    SECP256K1.double_point SECP256K1.zero_point = SECP256K1.zero_point :=
  ⟨c10_zero_sentinel_is_identity.2.1 _,
   c10_zero_sentinel_is_identity.2.2.1 _ _ (by decide) (by decide),
   c10_zero_sentinel_is_identity.2.2.2.1 _ _ (by decide) (by decide) (by decide),
   c10_zero_sentinel_is_identity.2.2.2.2 _ (by decide)⟩

set_option maxRecDepth 40000 in
/-- C2: evaluating the SEC round trip at the generator, compressed.
Encoding yields the prefix-2 form (GY is even), but decoding it panics:
`x.pow(3)` is the plain non-modular `U256` power and `GX^3` overflows, so
`decode(encode(G, compressed)) ` is a panic (`none`), not `G`.  (The
exponent `(p+1)/4` would additionally be truncated to its low 32 bits by
`low_u32`.)  This contradicts the claimed round trip and the repo's own
`test_pk_sec`. -/
theorem c2_compressed_decode_panics :
    pkEncode gCPoint true = some (2 :: beBytesN 32 GX) ∧
    (pkEncode gCPoint true).bind (fun bs => pkDecode bs secpCurve) = none := by
  constructor
  · decide
  · decide

/-- C6: requesting the modular inverse of zero does not fail: ru256's
Fermat-based `div_mod(3, 0, 5)` silently returns 0 (because
`0^(p-2) mod p = 0`), and curves.rs `inv(0, 5)` returns 0 from the
extended-Euclidean coefficients; no `NotInvertible` error exists. -/
theorem c6_zero_inverse_returns_zero :
    RU256.div_mod 3 0 5 = 0 ∧ Curves.inv 0 5 = .ok 0 := by
  constructor
  · decide
  · decide

/-- C8: Base58Check address decoding always panics: `b58decode` writes the
decoded integer through `U256::to_big_endian` into a freshly created empty
vector, which requires a 32-byte buffer.  So `address_to_pkb_hash` returns
`none` (a panic) on every input, and the claimed decode/encode round trip
never returns the hash160. -/
theorem c8_address_decode_always_panics (s : List Char) :
    address_to_pkb_hash s = none := by
  have hdec : b58decode s = none := by
    unfold b58decode
    cases h : b58fold s 0 with
    | none => rfl
    | some n => simp [u256ToBigEndian]
  unfold address_to_pkb_hash
  rw [hdec]
  rfl

/-- Witness for C8 at the repo's own test address
"14cxpo3MBCYYWCgF74SWTdcmxipnGUsPw3". -/
theorem c8_witness :
    address_to_pkb_hash
      ['1','4','c','x','p','o','3','M','B','C','Y','Y','W','C','g','F','7','4',
       'S','W','T','d','c','m','x','i','p','n','G','U','s','P','w','3'] = none :=
  c8_address_decode_always_panics _

set_option maxRecDepth 40000 in
/-- C3 counterexample: G and −G = (GX, p − GY) are two non-identity points
on the secp256k1 curve with equal x and different y, yet
`SECP256K1::add_points` returns neither the identity (0, 0) nor a panic:
lacking any P = −Q check, it divides by the zero denominator (which the
Fermat `div_mod` maps to 0) and returns a garbage affine point. -/
theorem c3_counterexample :
    GY * GY % P256 = (GX * GX % P256 * GX % P256 + 7) % P256 ∧
    (P256 - GY) * (P256 - GY) % P256 = (GX * GX % P256 * GX % P256 + 7) % P256 ∧
    GY ≠ P256 - GY ∧
    SECP256K1.add_points ⟨GX, GY⟩ ⟨GX, P256 - GY⟩ ≠ some SECP256K1.zero_point ∧
    SECP256K1.add_points ⟨GX, GY⟩ ⟨GX, P256 - GY⟩ ≠ none := by
  simp only [add_points_eqF]
  refine ⟨by decide, by decide, by decide, by decide, by decide⟩

/-- C3 (amended): in curves.rs the identity and doubling checks do precede
the slope: for non-identity operands with equal x and different y the sum is
`INF` before any λ is computed, and the extended-Euclidean inverse never
performs a division by zero for a positive modulus.  (In secp256k1.rs, by
contrast, `add_points` asserts P ≠ Q and has no P = −Q check — see the
counterexample.) -/
theorem c3_checks_before_slope :
    (∀ (c : CCurve) (x1 y1 x2 y2 : Nat), x1 = x2 → y1 ≠ y2 →
      Curves.cadd ⟨c, some x1, some y1⟩ ⟨c, some x2, some y2⟩ = .ok Curves.INF) ∧
    (∀ n p : Nat, 0 < p → Curves.inv n p ≠ .error .divZero) := by
  constructor
  · intro c x1 y1 x2 y2 hx hy
    have h1 : (⟨c, some x1, some y1⟩ : CPoint) ≠ Curves.INF := by
      simp [Curves.INF]
    have h2 : (⟨c, some x2, some y2⟩ : CPoint) ≠ Curves.INF := by
      simp [Curves.INF]
    have h3 : (⟨c, some x1, some y1⟩ : CPoint).x = (⟨c, some x2, some y2⟩ : CPoint).x
        ∧ (⟨c, some x1, some y1⟩ : CPoint).y ≠ (⟨c, some x2, some y2⟩ : CPoint).y := by
      constructor
      · simpa using hx
      · simpa using hy
    unfold Curves.cadd
    rw [if_neg h1, if_neg h2, if_pos h3]
  · exact fun n p hp => inv_no_divZero n p hp

/-- Witness for C3 (amended) on the curve y² = x³ + 2x + 2 mod 17 of the
repo's own curves.rs tests, with P = (5, 1) and −P = (5, 16). -/
theorem c3_witness :
    (5 : Nat) = 5 ∧ (1 : Nat) ≠ 16 ∧
    Curves.cadd ⟨⟨17, 2, 2⟩, some 5, some 1⟩ ⟨⟨17, 2, 2⟩, some 5, some 16⟩
      = .ok Curves.INF ∧
    0 < 5 ∧ Curves.inv 3 5 ≠ .error .divZero :=
  ⟨rfl, by decide,
   c3_checks_before_slope.1 ⟨17, 2, 2⟩ 5 1 5 16 rfl (by decide),
   by decide,
   c3_checks_before_slope.2 3 5 (by decide)⟩

/-! ## C9: the genesis block -/

/-- The 80-byte mainnet genesis header (block.rs GENESIS_BLOCK_MAIN). -/
def genesisBytes : List Nat :=
  [0x01, 0x00, 0x00, 0x00, 0x00, 0x00, 0x00, 0x00, 0x00, 0x00, 0x00, 0x00, 0x00, 0x00,
   0x00, 0x00, 0x00, 0x00, 0x00, 0x00, 0x00, 0x00, 0x00, 0x00, 0x00, 0x00, 0x00, 0x00,
   0x00, 0x00, 0x00, 0x00, 0x00, 0x00, 0x00, 0x00, 0x3B, 0xA3, 0xED, 0xFD, 0x7A, 0x7B,
   0x12, 0xB2, 0x7A, 0xC7, 0x2C, 0x3E, 0x67, 0x76, 0x8F, 0x61, 0x7F, 0xC8, 0x1B, 0xC3,
   0x88, 0x8A, 0x51, 0x32, 0x3A, 0x9F, 0xB8, 0xAA, 0x4B, 0x1E, 0x5E, 0x4A, 0x29, 0xAB,
   0x5F, 0x49, 0xFF, 0xFF, 0x00, 0x1D, 0x1D, 0xAC, 0x2B, 0x7C]

/-- The display-order genesis block id
000000000019d6689c085ae165831e934ff763ae46a2a6c172b3f1b60a8ce26f. -/
def genesisIdBytes : List Nat :=
  [0x00, 0x00, 0x00, 0x00, 0x00, 0x19, 0xD6, 0x68, 0x9C, 0x08, 0x5A, 0xE1, 0x65, 0x83,
   0x1E, 0x93, 0x4F, 0xF7, 0x63, 0xAE, 0x46, 0xA2, 0xA6, 0xC1, 0x72, 0xB3, 0xF1, 0xB6,
   0x0A, 0x8C, 0xE2, 0x6F]

/-- The decoded genesis header (fields as Block::decode produces them:
prev-block and merkle root byte-reversed, bits and nonce verbatim). -/
def genesisBlock : BlockH :=
  ⟨1, List.replicate 32 0,
   [0x4A, 0x5E, 0x1E, 0x4B, 0xAA, 0xB8, 0x9F, 0x3A, 0x32, 0x51, 0x8A, 0x88, 0xC3, 0x1B,
    0xC8, 0x7F, 0x61, 0x8F, 0x76, 0x67, 0x3E, 0x2C, 0xC7, 0x7A, 0xB2, 0x12, 0x7B, 0x7A,
    0xFD, 0xED, 0xA3, 0x3B],
   1231006505, [0xFF, 0xFF, 0x00, 0x1D], [0x1D, 0xAC, 0x2B, 0x7C]⟩

set_option maxRecDepth 100000 in
/-- C9: at the genesis header the claim fails on the code: the encoding and
the id hash are computed correctly (conjuncts 1-2, matching the published
genesis id), and the id read as a big-endian integer is far below the real
target coeff·256^(exp−3) = 0xFFFF·256^(0x1D−3) (conjunct 5), so the claim
says the header validates; but `bits_to_target` copies the reversed
coefficient bytes into the high-order end of the 32-byte big-endian buffer,
making the coefficient 2^232 times too large, the wrapped product 0, and
`validate` false (conjuncts 3-4) — contradicting the module's own
`test_genesis_block`. -/
theorem c9_genesis_target_and_validate :
    blockEncode genesisBlock = genesisBytes ∧
    (hash256 genesisBytes).reverse = genesisIdBytes ∧
    bits_to_target [0xFF, 0xFF, 0x00, 0x1D] = 0 ∧
    blockValidate genesisBlock = some false ∧
    fromBE genesisIdBytes < 0xFFFF * 256 ^ (0x1D - 3) := by
  refine ⟨by decide, by decide, by decide, by decide, by decide⟩
/-! ## Concrete scalar-multiplication evaluations (secp256k1.rs ladder) -/

set_option maxRecDepth 100000 in
set_option maxHeartbeats 1000000000 in
/-- Ladder segment, bits 255 down to 192 of the scalar. -/
theorem smulN_seg1 :
    smulSegF (N256) 256 192
      (some SECP256K1.zero_point) SECP256K1.gPoint
    = some (SPoint.mk 0x30DE2C8BC2010AAEBBB647C5BAC00EB8028F78D795F2CD4532BC6C504C0E01E7
        0xC0D5C28AAF23D4094CBD1CFE466CC43BCD0DE0F04F6EAF0ED010E43E8D02EAD9) := by
  decide

set_option maxRecDepth 100000 in
set_option maxHeartbeats 1000000000 in
/-- Ladder segment, bits 191 down to 128 of the scalar. -/
theorem smulN_seg2 :
    smulSegF (N256) 192 128
      (some (SPoint.mk 0x30DE2C8BC2010AAEBBB647C5BAC00EB8028F78D795F2CD4532BC6C504C0E01E7
        0xC0D5C28AAF23D4094CBD1CFE466CC43BCD0DE0F04F6EAF0ED010E43E8D02EAD9)) SECP256K1.gPoint
    = some (SPoint.mk 0x97DE6003A550284732D1C7FA7DB3083BA4245FAAD278CEC04FAEA50454211E63
        0xE250F63A1B3F2710A409AF09A04F8C8207C3AB50E81C3CD62F25C1EB8D86D3F5) := by
  decide

set_option maxRecDepth 100000 in
set_option maxHeartbeats 1000000000 in
/-- Ladder segment, bits 127 down to 64 of the scalar. -/
theorem smulN_seg3 :
    smulSegF (N256) 128 64
      (some (SPoint.mk 0x97DE6003A550284732D1C7FA7DB3083BA4245FAAD278CEC04FAEA50454211E63
        0xE250F63A1B3F2710A409AF09A04F8C8207C3AB50E81C3CD62F25C1EB8D86D3F5)) SECP256K1.gPoint
    = some (SPoint.mk 0x28D168B81BC1B9C268F8B95E9E6D2FFD2005AAA5988C3EE25003248EB3741E07
        0x52D4F7A2A77B07F5146A3A4A175CE3613FCA612B43D42599C30198EEDE3006D1) := by
  decide

set_option maxRecDepth 100000 in
set_option maxHeartbeats 1000000000 in
/-- Ladder segment, bits 63 down to 0 of the scalar. -/
theorem smulN_seg4 :
    smulSegF (N256) 64 0
      (some (SPoint.mk 0x28D168B81BC1B9C268F8B95E9E6D2FFD2005AAA5988C3EE25003248EB3741E07
        0x52D4F7A2A77B07F5146A3A4A175CE3613FCA612B43D42599C30198EEDE3006D1)) SECP256K1.gPoint
    = some (SPoint.mk 0x0C8333020C4688A754BF3AD462F1E9F1FAC80649A463AE4D4C1AFD48D20FCCFF GY) := by
  decide

set_option maxRecDepth 100000 in
set_option maxHeartbeats 1000000000 in
/-- Ladder segment, bits 255 down to 192 of the scalar. -/
theorem smulNsucc_seg1 :
    smulSegF (N256 + 1) 256 192
      (some SECP256K1.zero_point) SECP256K1.gPoint
    = some (SPoint.mk 0x30DE2C8BC2010AAEBBB647C5BAC00EB8028F78D795F2CD4532BC6C504C0E01E7
        0xC0D5C28AAF23D4094CBD1CFE466CC43BCD0DE0F04F6EAF0ED010E43E8D02EAD9) := by
  decide

set_option maxRecDepth 100000 in
set_option maxHeartbeats 1000000000 in
/-- Ladder segment, bits 191 down to 128 of the scalar. -/
theorem smulNsucc_seg2 :
    smulSegF (N256 + 1) 192 128
      (some (SPoint.mk 0x30DE2C8BC2010AAEBBB647C5BAC00EB8028F78D795F2CD4532BC6C504C0E01E7
        0xC0D5C28AAF23D4094CBD1CFE466CC43BCD0DE0F04F6EAF0ED010E43E8D02EAD9)) SECP256K1.gPoint
    = some (SPoint.mk 0x97DE6003A550284732D1C7FA7DB3083BA4245FAAD278CEC04FAEA50454211E63
        0xE250F63A1B3F2710A409AF09A04F8C8207C3AB50E81C3CD62F25C1EB8D86D3F5) := by
  decide

set_option maxRecDepth 100000 in
set_option maxHeartbeats 1000000000 in
/-- Ladder segment, bits 127 down to 64 of the scalar. -/
theorem smulNsucc_seg3 :
    smulSegF (N256 + 1) 128 64
      (some (SPoint.mk 0x97DE6003A550284732D1C7FA7DB3083BA4245FAAD278CEC04FAEA50454211E63
        0xE250F63A1B3F2710A409AF09A04F8C8207C3AB50E81C3CD62F25C1EB8D86D3F5)) SECP256K1.gPoint
    = some (SPoint.mk 0x28D168B81BC1B9C268F8B95E9E6D2FFD2005AAA5988C3EE25003248EB3741E07
        0x52D4F7A2A77B07F5146A3A4A175CE3613FCA612B43D42599C30198EEDE3006D1) := by
  decide

set_option maxRecDepth 100000 in
set_option maxHeartbeats 1000000000 in
/-- Ladder segment, bits 63 down to 0 of the scalar. -/
theorem smulNsucc_seg4 :
    smulSegF (N256 + 1) 64 0
      (some (SPoint.mk 0x28D168B81BC1B9C268F8B95E9E6D2FFD2005AAA5988C3EE25003248EB3741E07
        0x52D4F7A2A77B07F5146A3A4A175CE3613FCA612B43D42599C30198EEDE3006D1)) SECP256K1.gPoint
    = some SECP256K1.gPoint := by
  decide

set_option maxRecDepth 100000 in
/-- Composition of the four `smulN` segments: the n·G ladder of
secp256k1.rs lands on a garbage affine point, not the identity. -/
theorem smul_N_G : SECP256K1.scalar_multiplication N256 SECP256K1.gPoint
    = some ⟨0x0C8333020C4688A754BF3AD462F1E9F1FAC80649A463AE4D4C1AFD48D20FCCFF, GY⟩ := by
  rw [smul_eqF]
  show smulGoF N256 (nbits N256) (some SECP256K1.zero_point) SECP256K1.gPoint = _
  have h : nbits N256 = 256 := by decide
  rw [h, smulSegF_go,
    smulSegF_split N256 256 0 192 (some SECP256K1.zero_point) SECP256K1.gPoint
      (by omega) (by omega),
    smulN_seg1,
    smulSegF_split N256 192 0 128 _ SECP256K1.gPoint (by omega) (by omega), smulN_seg2,
    smulSegF_split N256 128 0 64 _ SECP256K1.gPoint (by omega) (by omega), smulN_seg3]
  exact smulN_seg4

set_option maxRecDepth 100000 in
/-- Composition of the four `smulNsucc` segments: the ladder accepts
k = n + 1 > n and returns G. -/
theorem smul_Nsucc_G : SECP256K1.scalar_multiplication (N256 + 1) SECP256K1.gPoint
    = some SECP256K1.gPoint := by
  rw [smul_eqF]
  show smulGoF (N256 + 1) (nbits (N256 + 1)) (some SECP256K1.zero_point) SECP256K1.gPoint = _
  have h : nbits (N256 + 1) = 256 := by decide
  rw [h, smulSegF_go,
    smulSegF_split (N256 + 1) 256 0 192 (some SECP256K1.zero_point) SECP256K1.gPoint
      (by omega) (by omega),
    smulNsucc_seg1,
    smulSegF_split (N256 + 1) 192 0 128 _ SECP256K1.gPoint (by omega) (by omega), smulNsucc_seg2,
    smulSegF_split (N256 + 1) 128 0 64 _ SECP256K1.gPoint (by omega) (by omega), smulNsucc_seg3]
  exact smulNsucc_seg4

/-- C4: scalar multiplication on the secp256k1.rs ladder: 0·G is the zero
point and 1·G = G as claimed, and k > n is accepted with reduction mod n
left to the caller ((n+1)·G evaluates to G); but n·G is NOT the identity:
with no P = −Q check in `add_points`, the last ladder step add((n−1)·G, G)
divides by zero (Fermat-mapped to 0) and yields the garbage affine point
(−2·GX mod p, GY). -/
theorem c4_scalar_identities :
    SECP256K1.scalar_multiplication 0 SECP256K1.gPoint = some SECP256K1.zero_point ∧
    SECP256K1.scalar_multiplication 1 SECP256K1.gPoint = some SECP256K1.gPoint ∧
    SECP256K1.scalar_multiplication N256 SECP256K1.gPoint
      = some ⟨0x0C8333020C4688A754BF3AD462F1E9F1FAC80649A463AE4D4C1AFD48D20FCCFF, GY⟩ ∧
    (⟨0x0C8333020C4688A754BF3AD462F1E9F1FAC80649A463AE4D4C1AFD48D20FCCFF, GY⟩ : SPoint)
      ≠ SECP256K1.zero_point ∧
    SECP256K1.scalar_multiplication (N256 + 1) SECP256K1.gPoint = some SECP256K1.gPoint := by
  refine ⟨rfl, by decide, smul_N_G, by decide, smul_Nsucc_G⟩

/-! ## C5: ECDSA verification at an identity point -/

/-- The point u1·G computed by `verify_ecdsa` for the empty message with
r = s = 1 (then w = 1 and u1 = z mod n); the pair is certified against the
ladder by `c5_u1G_eval` below. -/
def c5A : Nat × Nat :=
  (0x83A2EB1D9AE027FE47C8EC88E6D9E6A3903F5D0E5602FA232A0FE221DAE256B1,
   0x7F8C6207229C6261A6659C12C59265A3299CBB0E45D180D15D7226F29323894D)

/-- The adversarial public key −(u1·G): same x, negated y, so that
u1·G + u2·Q with u2 = 1 is the identity. -/
def c5Q : Nat × Nat := (c5A.1, P256 - c5A.2)

set_option maxRecDepth 100000 in
set_option maxHeartbeats 1000000000 in
/-- Ladder segment, bits 254 down to 192 of the scalar. -/
theorem c5u1_seg1 :
    SpecEC.smulSeg (fromBE (hash256 []) * SpecEC.finv 1 N256 % N256) 255 192
      none SpecEC.gPt
    = some (0xB2143303BD56770B44219BC16EC3A2527466D99215F8B00ED520C688BAF7043C,
        0x0978430D31B67D727CAF5A6C4C3C273CA7A0DBBC4520F4695C84B1641CE67BBC) := by
  decide

set_option maxRecDepth 100000 in
set_option maxHeartbeats 1000000000 in
/-- Ladder segment, bits 191 down to 128 of the scalar. -/
theorem c5u1_seg2 :
    SpecEC.smulSeg (fromBE (hash256 []) * SpecEC.finv 1 N256 % N256) 192 128
      (some (0xB2143303BD56770B44219BC16EC3A2527466D99215F8B00ED520C688BAF7043C,
        0x0978430D31B67D727CAF5A6C4C3C273CA7A0DBBC4520F4695C84B1641CE67BBC)) SpecEC.gPt
    = some (0x7A56DF6506A6994EE1056ED9EC193EF992CF07394C0BE9B3CE30C51811215792,
        0x33F94C109876B83A45436A45870386F543DBC88ED9D835C703ED615097A84DF5) := by
  decide

set_option maxRecDepth 100000 in
set_option maxHeartbeats 1000000000 in
/-- Ladder segment, bits 127 down to 64 of the scalar. -/
theorem c5u1_seg3 :
    SpecEC.smulSeg (fromBE (hash256 []) * SpecEC.finv 1 N256 % N256) 128 64
      (some (0x7A56DF6506A6994EE1056ED9EC193EF992CF07394C0BE9B3CE30C51811215792,
        0x33F94C109876B83A45436A45870386F543DBC88ED9D835C703ED615097A84DF5)) SpecEC.gPt
    = some (0x024C2FA14EE73816708D71225D05503F043E7B6B7D41CE524D8F77D3D1D2E8AB,
        0x4DF23BDF30609797D115D5A83C6BBC1F21B420E537E53E497B92259131F2232E) := by
  decide

set_option maxRecDepth 100000 in
set_option maxHeartbeats 1000000000 in
/-- Ladder segment, bits 63 down to 0 of the scalar. -/
theorem c5u1_seg4 :
    SpecEC.smulSeg (fromBE (hash256 []) * SpecEC.finv 1 N256 % N256) 64 0
      (some (0x024C2FA14EE73816708D71225D05503F043E7B6B7D41CE524D8F77D3D1D2E8AB,
        0x4DF23BDF30609797D115D5A83C6BBC1F21B420E537E53E497B92259131F2232E)) SpecEC.gPt
    = some c5A := by
  decide


set_option maxRecDepth 100000 in
/-- Evaluation of the u1·G ladder inside `verify_ecdsa (some c5Q) [] 1 1`
(with s = 1 the scalar is z·1⁻¹ = z mod n), composed from the four
`c5u1` segments. -/
theorem c5_u1G_eval :
    SpecEC.smul (fromBE (hash256 []) * SpecEC.finv 1 N256 % N256) SpecEC.gPt
      = some c5A := by
  show SpecEC.smulGo (fromBE (hash256 []) * SpecEC.finv 1 N256 % N256)
      (nbits (fromBE (hash256 []) * SpecEC.finv 1 N256 % N256)) none SpecEC.gPt = some c5A
  have h : nbits (fromBE (hash256 []) * SpecEC.finv 1 N256 % N256) = 255 := by decide
  rw [h, SpecEC.smulSeg_go,
    SpecEC.smulSeg_split _ 255 0 192 none SpecEC.gPt (by omega) (by omega),
    c5u1_seg1,
    SpecEC.smulSeg_split _ 192 0 128 _ SpecEC.gPt (by omega) (by omega), c5u1_seg2,
    SpecEC.smulSeg_split _ 128 0 64 _ SpecEC.gPt (by omega) (by omega), c5u1_seg3]
  exact c5u1_seg4

set_option maxRecDepth 100000 in
set_option maxHeartbeats 1000000000 in
/-- Evaluation shared by the two C5 theorems: on the identity-sum instance
`verify_ecdsa` hits the `unwrap` of the absent x-coordinate. -/
theorem c5_trap_eval : verify_ecdsa (some c5Q) [] 1 1 = .error .unwrapNone := by
  rw [verify_eval (some c5Q) [] 1 1 (by decide) (by decide), c5_u1G_eval]
  decide

/-- C5 counterexample: an in-range signature (r = s = 1) and a public key
for which P = u1·G + u2·Q is the identity make `verify_ecdsa` panic — the
`P.x.unwrap()` of the identity's absent x-coordinate — instead of rejecting
as the claim states. -/
theorem c5_counterexample :
    (1 ≤ (1 : Nat) ∧ 1 < N256) ∧
    verify_ecdsa (some c5Q) [] 1 1 = .error .unwrapNone :=
  ⟨by decide, c5_trap_eval⟩

/-- C5 (amended): `verify_ecdsa` rejects with an assertion failure any r or
s outside [1, n); but it has no identity check on P = u1·G + u2·Q: when P is
the identity it traps (unwrap of the absent x-coordinate) rather than
rejecting. -/
theorem c5_range_rejected_identity_traps :
    (∀ (q : Option (Nat × Nat)) (msg : List Nat) (r s : Nat),
      ¬ (1 ≤ r ∧ r < N256) ∨ ¬ (1 ≤ s ∧ s < N256) →
      verify_ecdsa q msg r s = .error .rsRange) ∧
    verify_ecdsa (some c5Q) [] 1 1 = .error .unwrapNone := by
  constructor
  · intro q msg r s h
    unfold verify_ecdsa
    rcases h with h | h
    · rw [if_pos h]
    · by_cases hr : 1 ≤ r ∧ r < N256
      · rw [if_neg (not_not_intro hr), if_pos h]
      · rw [if_pos hr]
  · exact c5_trap_eval

/-- Witness for C5 (amended) at r = 0. -/
theorem c5_witness :
    (¬ (1 ≤ (0 : Nat) ∧ 0 < N256) ∨ ¬ (1 ≤ (1 : Nat) ∧ 1 < N256)) ∧
    verify_ecdsa none [] 0 1 = .error .rsRange :=
  ⟨Or.inl (by decide), c5_range_rejected_identity_traps.1 none [] 0 1 (Or.inl (by decide))⟩

/-! ## C1: ECDSA sign/verify round trip and cross-key acceptance -/

/-- The s-component that `sign_ecdsa(sk = 2, msg = "", k = 1)` emits
(r is x(1·G) = GX). -/
def c1sigS : Nat := 0x5173ADE069CCD12BB5C33A312B37B5DB4E0A7014F2490E6B32543C68BB068245

/-- The second secret key −sk − 2·z·r⁻¹ mod n: its public key satisfies
x(u1·G + u2·Q) = r for the very same signature, because u1 + u2·d' ≡ −k
(mod n) and opposite scalars share the x-coordinate. -/
def c1d2 : Nat :=
  (N256 - (2 + 2 * fromBE (hash256 []) * SpecEC.finv GX N256) % N256) % N256

/-- The public key of `c1d2`, as computed below. -/
def c1Qd : Nat × Nat :=
  (0x6161AB8CFA57B11D1B96525CA1C63E3BB07ED395CD2B51E9A7C10DA2A6CEE51F,
   0x27B126F14EBF517E43180DC0A1A1E968DF917E88E6ED79F61AFBB63B1B31FA68)

/-- The public key of sk = 2, i.e. 2·G. -/
def c1Q2 : Nat × Nat :=
  (0xC6047F9441ED7D6D3045406E95C07CD85C778E4B8CEF3CA7ABAC09B95C709EE5,
   0x1AE168FEA63DC339A3C58419466CEAEEF7F632653266D0E1236431A950CFE52A)

/-- The point u1·G of both verifications below (same message, same s), as a
literal affine pair certified by `c1_u1G_eval`. -/
def c1u1G : Nat × Nat :=
  (0xB7BE5E5398F0A7FB32E157343E7226B6F1A8AEEB7E1FD588BEE1C884C25E5DC7,
   0x76EE7795780F8EE4144EA11FE7C80B3C22192CF07F231549FE3E9D4B34AD4FD1)

/-- The point u2·Qd of the cross-key verification, certified by
`c1_u2Qd_eval`. -/
def c1u2Qd : Nat × Nat :=
  (0xEB231793B97CF8D4CCBB785FAD596B379EC993F665ABF67D676870F126233DA0,
   0x56A88CC080DEF087F016FD4BF8410401273689009FEE7670BB3C6E5C79B826AE)

/-- The point u2·(2·G) of the honest verification, certified by
`c1_u2Q2_eval`. -/
def c1u2Q2 : Nat × Nat :=
  (0xD778E8ADF9A7D6F52315A31BCACA7A110C4BF1E6540E69D61F40F9D12B2C7A84,
   0x61CD64083F5A65A234109C101E20D2D48F7D13A2C1EEACD92B9F9141D7A9AAC6)

set_option maxRecDepth 100000 in
set_option maxHeartbeats 1000000000 in
/-- The signature that `sign_ecdsa(sk = 2, msg = "", k = 1)` emits. -/
theorem c1_sign_eval : sign_ecdsa 2 [] 1 = some (GX, c1sigS) := by
  decide

set_option maxRecDepth 100000 in
set_option maxHeartbeats 1000000000 in
/-- Ladder segment, bits 254 down to 192 of the scalar. -/
theorem c1u1_seg1 :
    SpecEC.smulSeg (fromBE (hash256 []) * SpecEC.finv c1sigS N256 % N256) 255 192
      none SpecEC.gPt
    = some (0x05FCB32914CCC01821A889291260A1992ACB6ACC437973D1ECFEF57789887DC5,
        0x367ACCD4C9102DE07B70DCB2BF60B6B3928399336A71D545AF993B3C6DC2E5BB) := by
  decide

set_option maxRecDepth 100000 in
set_option maxHeartbeats 1000000000 in
/-- Ladder segment, bits 191 down to 128 of the scalar. -/
theorem c1u1_seg2 :
    SpecEC.smulSeg (fromBE (hash256 []) * SpecEC.finv c1sigS N256 % N256) 192 128
      (some (0x05FCB32914CCC01821A889291260A1992ACB6ACC437973D1ECFEF57789887DC5,
        0x367ACCD4C9102DE07B70DCB2BF60B6B3928399336A71D545AF993B3C6DC2E5BB)) SpecEC.gPt
    = some (0x8F520AF7D89B8ADA605596553D5F9CD869CDDE02967182D31095FFEEDB67B9FB,
        0xC48D5C6CDB8CF1A68E4E0A695DEB352A022C0954BBFA9346F8CFD943EE81C68F) := by
  decide

set_option maxRecDepth 100000 in
set_option maxHeartbeats 1000000000 in
/-- Ladder segment, bits 127 down to 64 of the scalar. -/
theorem c1u1_seg3 :
    SpecEC.smulSeg (fromBE (hash256 []) * SpecEC.finv c1sigS N256 % N256) 128 64
      (some (0x8F520AF7D89B8ADA605596553D5F9CD869CDDE02967182D31095FFEEDB67B9FB,
        0xC48D5C6CDB8CF1A68E4E0A695DEB352A022C0954BBFA9346F8CFD943EE81C68F)) SpecEC.gPt
    = some (0x0B6711D23F5091987AA33E23916B0E9B0E514C725AAC9141A39578F58DE4F248,
        0x808EE5132800A456D7C87A98C417CCDE958C3C97A332CDEA45DF31AD9A7F1CCC) := by
  decide

set_option maxRecDepth 100000 in
set_option maxHeartbeats 1000000000 in
/-- Ladder segment, bits 63 down to 0 of the scalar. -/
theorem c1u1_seg4 :
    SpecEC.smulSeg (fromBE (hash256 []) * SpecEC.finv c1sigS N256 % N256) 64 0
      (some (0x0B6711D23F5091987AA33E23916B0E9B0E514C725AAC9141A39578F58DE4F248,
        0x808EE5132800A456D7C87A98C417CCDE958C3C97A332CDEA45DF31AD9A7F1CCC)) SpecEC.gPt
    = some c1u1G := by
  decide


set_option maxRecDepth 100000 in
/-- Evaluation of the u1·G ladder shared by the two verifications, composed
from the four `c1u1` segments. -/
theorem c1_u1G_eval :
    SpecEC.smul (fromBE (hash256 []) * SpecEC.finv c1sigS N256 % N256) SpecEC.gPt
      = some c1u1G := by
  show SpecEC.smulGo (fromBE (hash256 []) * SpecEC.finv c1sigS N256 % N256)
      (nbits (fromBE (hash256 []) * SpecEC.finv c1sigS N256 % N256)) none SpecEC.gPt = some c1u1G
  have h : nbits (fromBE (hash256 []) * SpecEC.finv c1sigS N256 % N256) = 255 := by decide
  rw [h, SpecEC.smulSeg_go,
    SpecEC.smulSeg_split _ 255 0 192 none SpecEC.gPt (by omega) (by omega),
    c1u1_seg1,
    SpecEC.smulSeg_split _ 192 0 128 _ SpecEC.gPt (by omega) (by omega), c1u1_seg2,
    SpecEC.smulSeg_split _ 128 0 64 _ SpecEC.gPt (by omega) (by omega), c1u1_seg3]
  exact c1u1_seg4

set_option maxRecDepth 100000 in
set_option maxHeartbeats 1000000000 in
/-- Ladder segment, bits 254 down to 192 of the scalar. -/
theorem c1u2Qd_seg1 :
    SpecEC.smulSeg (GX * SpecEC.finv c1sigS N256 % N256) 255 192
      none (some c1Qd)
    = some (0xA734425EEE49CB1B95424029941F90ABC700A10E414E40DEACF200DD16A425E6,
        0x74EB915D5CA528C60CEDF5A266F8881E8B02C23E493A13D024CC6241A28B0BC3) := by
  decide

set_option maxRecDepth 100000 in
set_option maxHeartbeats 1000000000 in
/-- Ladder segment, bits 191 down to 128 of the scalar. -/
theorem c1u2Qd_seg2 :
    SpecEC.smulSeg (GX * SpecEC.finv c1sigS N256 % N256) 192 128
      (some (0xA734425EEE49CB1B95424029941F90ABC700A10E414E40DEACF200DD16A425E6,
        0x74EB915D5CA528C60CEDF5A266F8881E8B02C23E493A13D024CC6241A28B0BC3)) (some c1Qd)
    = some (0xE0DD393D6B510C397F48337BAA2195F51DE1D7EB89E3BB4FBF2D6C5D42C20169,
        0x273DBDE3C81F278473DE8E2FBE578891D2705CD61ECA8F847C01360127729B1F) := by
  decide

set_option maxRecDepth 100000 in
set_option maxHeartbeats 1000000000 in
/-- Ladder segment, bits 127 down to 64 of the scalar. -/
theorem c1u2Qd_seg3 :
    SpecEC.smulSeg (GX * SpecEC.finv c1sigS N256 % N256) 128 64
      (some (0xE0DD393D6B510C397F48337BAA2195F51DE1D7EB89E3BB4FBF2D6C5D42C20169,
        0x273DBDE3C81F278473DE8E2FBE578891D2705CD61ECA8F847C01360127729B1F)) (some c1Qd)
    = some (0x2467125D988361B40BA29560F62E8B257C190E4049FF528D7790C570381322D9,
        0xC41C66C757178DCF8AE6CCC3B08238ECE65AC2BA11E8D0EFDE0D79D502F75CBC) := by
  decide

set_option maxRecDepth 100000 in
set_option maxHeartbeats 1000000000 in
/-- Ladder segment, bits 63 down to 0 of the scalar. -/
theorem c1u2Qd_seg4 :
    SpecEC.smulSeg (GX * SpecEC.finv c1sigS N256 % N256) 64 0
      (some (0x2467125D988361B40BA29560F62E8B257C190E4049FF528D7790C570381322D9,
        0xC41C66C757178DCF8AE6CCC3B08238ECE65AC2BA11E8D0EFDE0D79D502F75CBC)) (some c1Qd)
    = some c1u2Qd := by
  decide


set_option maxRecDepth 100000 in
/-- Evaluation of the u2·Qd ladder of the cross-key verification, composed
from the four `c1u2Qd` segments. -/
theorem c1_u2Qd_eval :
    SpecEC.smul (GX * SpecEC.finv c1sigS N256 % N256) (some c1Qd) = some c1u2Qd := by
  show SpecEC.smulGo (GX * SpecEC.finv c1sigS N256 % N256)
      (nbits (GX * SpecEC.finv c1sigS N256 % N256)) none (some c1Qd) = some c1u2Qd
  have h : nbits (GX * SpecEC.finv c1sigS N256 % N256) = 255 := by decide
  rw [h, SpecEC.smulSeg_go,
    SpecEC.smulSeg_split _ 255 0 192 none (some c1Qd) (by omega) (by omega),
    c1u2Qd_seg1,
    SpecEC.smulSeg_split _ 192 0 128 _ (some c1Qd) (by omega) (by omega), c1u2Qd_seg2,
    SpecEC.smulSeg_split _ 128 0 64 _ (some c1Qd) (by omega) (by omega), c1u2Qd_seg3]
  exact c1u2Qd_seg4

set_option maxRecDepth 100000 in
set_option maxHeartbeats 1000000000 in
/-- Ladder segment, bits 254 down to 192 of the scalar. -/
theorem c1u2Q2_seg1 :
    SpecEC.smulSeg (GX * SpecEC.finv c1sigS N256 % N256) 255 192
      none (some c1Q2)
    = some (0x940E34DF5D9B129EEF69C0C2284688F0F9897E945B04A4A47B9E73FD7D762414,
        0xD636C341DC2506B5E66A7B76E3B443ED02BFE770EC5C3C3CEE3878D5CA939A08) := by
  decide

set_option maxRecDepth 100000 in
set_option maxHeartbeats 1000000000 in
/-- Ladder segment, bits 191 down to 128 of the scalar. -/
theorem c1u2Q2_seg2 :
    SpecEC.smulSeg (GX * SpecEC.finv c1sigS N256 % N256) 192 128
      (some (0x940E34DF5D9B129EEF69C0C2284688F0F9897E945B04A4A47B9E73FD7D762414,
        0xD636C341DC2506B5E66A7B76E3B443ED02BFE770EC5C3C3CEE3878D5CA939A08)) (some c1Q2)
    = some (0x206CB6A1A064412AEE9FF8853B51D08A29B6ABB2EFB8F134E261A53ABF239139,
        0x844B08A93EA1DFF81F3BD476BF57AC5F16DABF2B17DCAC6D9F2BC66E7AD2EB4E) := by
  decide

set_option maxRecDepth 100000 in
set_option maxHeartbeats 1000000000 in
/-- Ladder segment, bits 127 down to 64 of the scalar. -/
theorem c1u2Q2_seg3 :
    SpecEC.smulSeg (GX * SpecEC.finv c1sigS N256 % N256) 128 64
      (some (0x206CB6A1A064412AEE9FF8853B51D08A29B6ABB2EFB8F134E261A53ABF239139,
        0x844B08A93EA1DFF81F3BD476BF57AC5F16DABF2B17DCAC6D9F2BC66E7AD2EB4E)) (some c1Q2)
    = some (0xA33C1E26C1228EB3D6689B189A270978B465CADF6B732C7D8DB0751082AB9596,
        0x75C05C2278829F476C2752B269B89F4373C82346E2E95CBAF8AC4D1FFC852502) := by
  decide

set_option maxRecDepth 100000 in
set_option maxHeartbeats 1000000000 in
/-- Ladder segment, bits 63 down to 0 of the scalar. -/
theorem c1u2Q2_seg4 :
    SpecEC.smulSeg (GX * SpecEC.finv c1sigS N256 % N256) 64 0
      (some (0xA33C1E26C1228EB3D6689B189A270978B465CADF6B732C7D8DB0751082AB9596,
        0x75C05C2278829F476C2752B269B89F4373C82346E2E95CBAF8AC4D1FFC852502)) (some c1Q2)
    = some c1u2Q2 := by
  decide


set_option maxRecDepth 100000 in
/-- Evaluation of the u2·(2·G) ladder of the honest verification, composed
from the four `c1u2Q2` segments. -/
theorem c1_u2Q2_eval :
    SpecEC.smul (GX * SpecEC.finv c1sigS N256 % N256) (some c1Q2) = some c1u2Q2 := by
  show SpecEC.smulGo (GX * SpecEC.finv c1sigS N256 % N256)
      (nbits (GX * SpecEC.finv c1sigS N256 % N256)) none (some c1Q2) = some c1u2Q2
  have h : nbits (GX * SpecEC.finv c1sigS N256 % N256) = 255 := by decide
  rw [h, SpecEC.smulSeg_go,
    SpecEC.smulSeg_split _ 255 0 192 none (some c1Q2) (by omega) (by omega),
    c1u2Q2_seg1,
    SpecEC.smulSeg_split _ 192 0 128 _ (some c1Q2) (by omega) (by omega), c1u2Q2_seg2,
    SpecEC.smulSeg_split _ 128 0 64 _ (some c1Q2) (by omega) (by omega), c1u2Q2_seg3]
  exact c1u2Q2_seg4

set_option maxRecDepth 100000 in
set_option maxHeartbeats 1000000000 in
/-- Ladder segment, bits 253 down to 192 of the scalar. -/
theorem c1d2G_seg1 :
    SpecEC.smulSeg (c1d2) 254 192
      none SpecEC.gPt
    = some (0x41719EC59168F6F99986433B76A49A683BE1FFA9011981BA8B5C0A93A20D3BF0,
        0xEAFB96659E17BFAFDEE83DDB2C77F2B0EA2B12F80A3C9D1A1FA0534772EC0359) := by
  decide

set_option maxRecDepth 100000 in
set_option maxHeartbeats 1000000000 in
/-- Ladder segment, bits 191 down to 128 of the scalar. -/
theorem c1d2G_seg2 :
    SpecEC.smulSeg (c1d2) 192 128
      (some (0x41719EC59168F6F99986433B76A49A683BE1FFA9011981BA8B5C0A93A20D3BF0,
        0xEAFB96659E17BFAFDEE83DDB2C77F2B0EA2B12F80A3C9D1A1FA0534772EC0359)) SpecEC.gPt
    = some (0xB978335AE05B6A4FD2CE91D067051CF3106676E27C79D72990F51110641108BE,
        0x598A7930A8722DB8B5AE6351B434ACAF4D2D912E22C2E9D132447AF6401EA264) := by
  decide

set_option maxRecDepth 100000 in
set_option maxHeartbeats 1000000000 in
/-- Ladder segment, bits 127 down to 64 of the scalar. -/
theorem c1d2G_seg3 :
    SpecEC.smulSeg (c1d2) 128 64
      (some (0xB978335AE05B6A4FD2CE91D067051CF3106676E27C79D72990F51110641108BE,
        0x598A7930A8722DB8B5AE6351B434ACAF4D2D912E22C2E9D132447AF6401EA264)) SpecEC.gPt
    = some (0x247A44CF66A927C6872EAF046706E4B3D3477D1549CBE7D68A1FD923B63C679C,
        0x60D8963C8F14A98FFED9F697B8C082AB3F2326CDAA0571430DD52AAACA63AEC3) := by
  decide

set_option maxRecDepth 100000 in
set_option maxHeartbeats 1000000000 in
/-- Ladder segment, bits 63 down to 0 of the scalar. -/
theorem c1d2G_seg4 :
    SpecEC.smulSeg (c1d2) 64 0
      (some (0x247A44CF66A927C6872EAF046706E4B3D3477D1549CBE7D68A1FD923B63C679C,
        0x60D8963C8F14A98FFED9F697B8C082AB3F2326CDAA0571430DD52AAACA63AEC3)) SpecEC.gPt
    = some c1Qd := by
  decide


set_option maxRecDepth 100000 in
/-- The public key of the second secret key `c1d2` is the literal `c1Qd`,
composed from the four `c1d2G` segments. -/
theorem c1_smul_d2 : SpecEC.smul c1d2 SpecEC.gPt = some c1Qd := by
  show SpecEC.smulGo (c1d2)
      (nbits (c1d2)) none SpecEC.gPt = some c1Qd
  have h : nbits (c1d2) = 254 := by decide
  rw [h, SpecEC.smulSeg_go,
    SpecEC.smulSeg_split _ 254 0 192 none SpecEC.gPt (by omega) (by omega),
    c1d2G_seg1,
    SpecEC.smulSeg_split _ 192 0 128 _ SpecEC.gPt (by omega) (by omega), c1d2G_seg2,
    SpecEC.smulSeg_split _ 128 0 64 _ SpecEC.gPt (by omega) (by omega), c1d2G_seg3]
  exact c1d2G_seg4

set_option maxRecDepth 100000 in
set_option maxHeartbeats 1000000000 in
/-- The cross-key verification accepts: u1·G + u2·Qd has x-coordinate r. -/
theorem c1_verify_d_eval : verify_ecdsa (some c1Qd) [] GX c1sigS = .ok true := by
  rw [verify_eval (some c1Qd) [] GX c1sigS (by decide) (by decide),
    c1_u1G_eval, c1_u2Qd_eval]
  decide

set_option maxRecDepth 100000 in
set_option maxHeartbeats 1000000000 in
/-- The honest verification accepts: u1·G + u2·(2·G) has x-coordinate r. -/
theorem c1_verify_2_eval : verify_ecdsa (some c1Q2) [] GX c1sigS = .ok true := by
  rw [verify_eval (some c1Q2) [] GX c1sigS (by decide) (by decide),
    c1_u1G_eval, c1_u2Q2_eval]
  decide

set_option maxRecDepth 100000 in
set_option maxHeartbeats 1000000000 in
/-- C1 counterexample: the signature produced by sk = 2 on the empty message
with nonce k = 1 is accepted by `verify_ecdsa` against the public key
`c1Qd = c1d2 · G` of the DIFFERENT secret key `c1d2` — so "verifying the
same signature against the public key of a different secret key returns
false" is false on this code. -/
theorem c1_counterexample :
    sign_ecdsa 2 [] 1 = some (GX, c1sigS) ∧
    c1d2 ≠ 2 ∧
    SpecEC.smul c1d2 SpecEC.gPt = some c1Qd ∧
    verify_ecdsa (some c1Qd) [] GX c1sigS = .ok true :=
  ⟨c1_sign_eval, by decide, c1_smul_d2, c1_verify_d_eval⟩

set_option maxRecDepth 100000 in
set_option maxHeartbeats 1000000000 in
/-- C1 (amended): the positive half holds at the exhibited instance — the
signature of sk = 2 on the empty message with nonce k = 1 verifies under
pubkey(2) = 2·G. -/
theorem c1_sign_verify_instance :
    sign_ecdsa 2 [] 1 = some (GX, c1sigS) ∧
    SpecEC.smul 2 SpecEC.gPt = some c1Q2 ∧
    verify_ecdsa (some c1Q2) [] GX c1sigS = .ok true :=
  ⟨c1_sign_eval, by decide, c1_verify_2_eval⟩
